import Mathlib

/-!
# Native/share/mutex.c

A shallow embedding of the recursive mutex wrappers of `Native/share/mutex.c`.

The C functions do nothing but call collaborators (the host's native mutex
calls, `thread_self`, `log_println`, `c_ASSERT`), so each function is embedded
as a program over those calls (`Prog`), and the programs are run against an
environment that answers the native calls (`run`).  Three environments are
used: `answers`, in which every native call returns a prescribed status code;
`refEnv`, the state machine of section 4.1 of the specification; and `cfgEnv`,
the same state machine with the configuration kept, in which the primitive
does what the flags or the attribute it was created with say.
-/

namespace MaxineMutex

/-- A machine word: pointers, handles and C `int` results. -/
abbrev Word := Int

/-- The C type `Mutex`: a pointer to the storage of the handle. -/
abbrev Mutex := Word

/-- The identifier of a thread, as returned by `thread_self()`. -/
abbrev Thread := Word

/-- The build-time selection of `mutex.c`: `os_SOLARIS`, `os_LINUX || os_DARWIN`,
`os_GUESTVMXEN`, or none of them (the `#else` branch). -/
inductive Backend where
  | SOLARIS
  | POSIX
  | GUESTVMXEN
  | NONE
  deriving DecidableEq, Repr

/-- The two ways in which the process is terminated: `c_ASSERT(false)` and
`c_UNIMPLEMENTED()`. -/
inductive Fatal where
  | ASSERT
  | UNIMPLEMENTED
  deriving DecidableEq, Repr

/-- The native calls made by `mutex.c`, with their arguments.  The attribute
calls of the POSIX branch all act on the local `mutex_attribute`, and
`pthread_mutex_init` receives a pointer to that same local; the third argument
of the Solaris `mutex_init` is always `NULL`. -/
inductive NativeCall where
  | mutex_init (mutex : Mutex) (flags : Nat)
  | mutex_lock (mutex : Mutex)
  | mutex_unlock (mutex : Mutex)
  | mutex_destroy (mutex : Mutex)
  | pthread_mutexattr_init
  | pthread_mutexattr_settype (type : Nat)
  | pthread_mutex_init (mutex : Mutex)
  | pthread_mutexattr_destroy
  | pthread_mutex_lock (mutex : Mutex)
  | pthread_mutex_unlock (mutex : Mutex)
  | pthread_mutex_destroy (mutex : Mutex)
  | guestvmXen_monitor_create
  | guestvmXen_monitor_enter (monitor : Word)
  | guestvmXen_monitor_exit (monitor : Word)
  | guestvmXen_holds_monitor (monitor : Word)
  deriving DecidableEq, Repr

/-- The constants of the host headers that `mutex.c` names.  They are not
defined in the repository, so the embedding takes them as parameters. -/
structure Constants where
  LOCK_RECURSIVE : Nat
  LOCK_ERRORCHECK : Nat
  PTHREAD_MUTEX_RECURSIVE : Nat
  deriving DecidableEq, Repr

/-- A program of `mutex.c`: a tree of calls to the collaborators.
`thread_self`, `log_println`, the native calls and the accesses to `*mutex`
are nodes; `fatal` has no continuation, the process is gone. -/
inductive Prog (α : Type) where
  | ret (a : α)
  | fatal (f : Fatal)
  | thread_self (k : Thread → Prog α)
  | log_println (format : String) (args : List Word) (k : Prog α)
  | load (p : Mutex) (k : Word → Prog α)
  | store (p : Mutex) (v : Word) (k : Prog α)
  | native (c : NativeCall) (k : Word → Prog α)

/-- Sequencing of programs. -/
def Prog.bind {α β : Type} : Prog α → (α → Prog β) → Prog β
  | .ret a, f => f a
  | .fatal x, _ => .fatal x
  | .thread_self k, f => .thread_self fun t => (k t).bind f
  | .log_println s as k, f => .log_println s as (k.bind f)
  | .load p k, f => .load p fun v => (k v).bind f
  | .store p v k, f => .store p v (k.bind f)
  | .native c k, f => .native c fun r => (k r).bind f

instance : Monad Prog where
  pure := Prog.ret
  bind := Prog.bind

/-- The call `thread_self()`. -/
def thread_self : Prog Thread := .thread_self .ret

/-- The call `log_println(format, args...)`. -/
def log_println (format : String) (args : List Word) : Prog Unit :=
  .log_println format args (.ret ())

/-- A native call, returning what the host returns. -/
def call (c : NativeCall) : Prog Word := .native c .ret

/-- The read `*mutex`. -/
def load (p : Mutex) : Prog Word := .load p .ret

/-- The write `*mutex = v`. -/
def store (p : Mutex) (v : Word) : Prog Unit := .store p v (.ret ())

/-- Modelled from the spec: the macro `c_ASSERT` is declared outside `mutex.c`.
Section 6: "a call that, given a false condition, terminates the process
immediately with diagnostic context". -/
def c_ASSERT (condition : Bool) : Prog Unit :=
  if condition then .ret () else .fatal .ASSERT

/-- Modelled from the spec: the macro `c_UNIMPLEMENTED` is declared outside
`mutex.c`.  Section 7: an unsupported backend is "fatal at build/initialization
time (unimplemented)". -/
def c_UNIMPLEMENTED : Prog Unit := .fatal .UNIMPLEMENTED

/-- The function `mutex_initialize` (lines 25-52). -/
def mutex_initialize (K : Constants) (os : Backend) (log_MONITORS : Bool) (mutex : Mutex) :
    Prog Unit := do
  if log_MONITORS then
    log_println "mutex_initialize(%p, %p)" [← thread_self, mutex]
  match os with
  | .SOLARIS =>
    if (← call (.mutex_init mutex (K.LOCK_RECURSIVE ||| K.LOCK_ERRORCHECK))) != 0 then
      c_ASSERT false
  | .POSIX =>
    if (← call .pthread_mutexattr_init) != 0 then
      c_ASSERT false
    if (← call (.pthread_mutexattr_settype K.PTHREAD_MUTEX_RECURSIVE)) != 0 then
      c_ASSERT false
    if (← call (.pthread_mutex_init mutex)) != 0 then
      c_ASSERT false
    if (← call .pthread_mutexattr_destroy) != 0 then
      c_ASSERT false
  | .GUESTVMXEN =>
    store mutex (← call .guestvmXen_monitor_create)
  | .NONE =>
    c_UNIMPLEMENTED

namespace SOLARIS

/-- The Solaris `mutex_enter` (lines 56-61). -/
def mutex_enter (log_MONITORS : Bool) (mutex : Mutex) : Prog Word := do
  if log_MONITORS then
    log_println "mutex_enter     (%p, %p)" [← thread_self, mutex]
  return (← call (.mutex_lock mutex))

/-- The Solaris `mutex_exit` (lines 63-68). -/
def mutex_exit (log_MONITORS : Bool) (mutex : Mutex) : Prog Word := do
  if log_MONITORS then
    log_println "mutex_exit     (%p, %p)" [← thread_self, mutex]
  return (← call (.mutex_unlock mutex))

/-- The Solaris `mutex_dispose` (lines 70-77). -/
def mutex_dispose (log_MONITORS : Bool) (mutex : Mutex) : Prog Unit := do
  if log_MONITORS then
    log_println "mutex_dispose   (%p, %p)" [← thread_self, mutex]
  if (← call (.mutex_destroy mutex)) != 0 then
    c_ASSERT false

end SOLARIS

namespace POSIX

/-- The Linux/Darwin `mutex_enter` (lines 81-86). -/
def mutex_enter (log_MONITORS : Bool) (mutex : Mutex) : Prog Word := do
  if log_MONITORS then
    log_println "mutex_enter     (%p, %p)" [← thread_self, mutex]
  return (← call (.pthread_mutex_lock mutex))

/-- The Linux/Darwin `mutex_exit` (lines 88-93). -/
def mutex_exit (log_MONITORS : Bool) (mutex : Mutex) : Prog Word := do
  if log_MONITORS then
    log_println "mutex_exit     (%p, %p)" [← thread_self, mutex]
  return (← call (.pthread_mutex_unlock mutex))

/-- The Linux/Darwin `mutex_dispose` (lines 95-102). -/
def mutex_dispose (log_MONITORS : Bool) (mutex : Mutex) : Prog Unit := do
  if log_MONITORS then
    log_println "mutex_dispose   (%p, %p)" [← thread_self, mutex]
  if (← call (.pthread_mutex_destroy mutex)) != 0 then
    c_ASSERT false

end POSIX

namespace GUESTVMXEN

/-- The GuestVM/Xen `mutex_enter` (lines 106-114). -/
def mutex_enter (log_MONITORS : Bool) (mutex : Mutex) : Prog Word := do
  if log_MONITORS then
    log_println "mutex_dispose   (%p, %p)" [← thread_self, mutex]
  if (← call (.guestvmXen_monitor_enter (← load mutex))) != 0 then
    c_ASSERT false
  return 0

/-- The GuestVM/Xen `mutex_exit` (lines 116-124). -/
def mutex_exit (log_MONITORS : Bool) (mutex : Mutex) : Prog Word := do
  if log_MONITORS then
    log_println "mutex_exit     (%p, %p)" [← thread_self, mutex]
  if (← call (.guestvmXen_monitor_exit (← load mutex))) != 0 then
    c_ASSERT false
  return 0

/-- The GuestVM/Xen `mutex_isHeld` (lines 126-131); the C `Boolean` result is
the word returned by the hypervisor, non-zero meaning true. -/
def mutex_isHeld (log_MONITORS : Bool) (mutex : Mutex) : Prog Word := do
  if log_MONITORS then
    log_println "mutex_dispose   (%p, %p)" [← thread_self, mutex]
  return (← call (.guestvmXen_holds_monitor (← load mutex)))

end GUESTVMXEN

/-- The functions of `mutex.c` that a build defines: `mutex_enter`. -/
def compiled_mutex_enter : Backend → Option (Bool → Mutex → Prog Word)
  | .SOLARIS => some SOLARIS.mutex_enter
  | .POSIX => some POSIX.mutex_enter
  | .GUESTVMXEN => some GUESTVMXEN.mutex_enter
  | .NONE => none

/-- The functions of `mutex.c` that a build defines: `mutex_exit`. -/
def compiled_mutex_exit : Backend → Option (Bool → Mutex → Prog Word)
  | .SOLARIS => some SOLARIS.mutex_exit
  | .POSIX => some POSIX.mutex_exit
  | .GUESTVMXEN => some GUESTVMXEN.mutex_exit
  | .NONE => none

/-- The functions of `mutex.c` that a build defines: `mutex_dispose`, which
only the `os_SOLARIS` and `os_LINUX || os_DARWIN` branches contain. -/
def compiled_mutex_dispose : Backend → Option (Bool → Mutex → Prog Unit)
  | .SOLARIS => some SOLARIS.mutex_dispose
  | .POSIX => some POSIX.mutex_dispose
  | .GUESTVMXEN => none
  | .NONE => none

/-- The functions of `mutex.c` that a build defines: `mutex_isHeld`, which
only the `os_GUESTVMXEN` branch contains. -/
def compiled_mutex_isHeld : Backend → Option (Bool → Mutex → Prog Word)
  | .SOLARIS => none
  | .POSIX => none
  | .GUESTVMXEN => some GUESTVMXEN.mutex_isHeld
  | .NONE => none

/-! ## Running a program -/

/-- A line handed to `log_println`: the format and its arguments. -/
abbrev TraceLine := String × List Word

/-- What a call of a function of `mutex.c` comes to: it returns a value, the
process is aborted, or a native call never returns (the thread stays blocked). -/
inductive Outcome (α : Type) where
  | returned (a : α)
  | aborted (f : Fatal)
  | blocked
  deriving DecidableEq, Repr

/-- The host as seen by one thread: the value of `thread_self()` and, for each
native call, the result and the next state of the host, or `none` when the
call does not return. -/
structure Env (σ : Type) where
  self : Thread
  native : NativeCall → σ → Option (Word × σ)

/-- The state a program runs in: the state of the host, the storage the
handles live in, and the record of the native calls made and of the lines
traced so far. -/
structure World (σ : Type) where
  host : σ
  mem : Mutex → Word
  calls : List NativeCall
  trace : List TraceLine

/-- Runs a program of `mutex.c` in an environment. -/
def run {σ α : Type} (env : Env σ) : Prog α → World σ → Outcome α × World σ
  | .ret a, w => (.returned a, w)
  | .fatal f, w => (.aborted f, w)
  | .thread_self k, w => run env (k env.self) w
  | .log_println s as k, w => run env k { w with trace := w.trace ++ [(s, as)] }
  | .load p k, w => run env (k (w.mem p)) w
  | .store p v k, w => run env k { w with mem := Function.update w.mem p v }
  | .native c k, w =>
    match env.native c w.host with
    | none => (.blocked, { w with calls := w.calls ++ [c] })
    | some (r, s) => run env (k r) { w with host := s, calls := w.calls ++ [c] }

/-- The environment in which every native call returns the prescribed result. -/
def answers (self : Thread) (ans : NativeCall → Word) : Env Unit where
  self := self
  native := fun c _ => some (ans c, ())

/-- A world without history, for the environment `answers`. -/
def World.blank : World Unit where
  host := ()
  mem := fun _ => 0
  calls := []
  trace := []

/-! ## The reference model of the native primitive -/

/-- Modelled from the spec: the native primitive is outside the repository.
Section 4.1: "one logical state machine: {Uninitialized} → {Initialized,
Unlocked} ⇄ {Initialized, Locked(owner, depth)} → {Disposed}". -/
inductive MutexState where
  | Uninitialized
  | Unlocked
  | Locked (owner : Thread) (depth : Nat)
  | Disposed
  deriving DecidableEq, Repr

/-- The error codes the reference model answers with (`errno.h`). -/
def EPERM : Word := 1

/-- The error code for a destroy of a held primitive. -/
def EBUSY : Word := 16

/-- The error code for a handle that is not initialized. -/
def EINVAL : Word := 22

/-- Modelled from the spec: native creation.  Section 4.1: initialize has the
precondition that the handle "refers to valid, uninitialized storage" and
"transitions the handle to Initialized, Unlocked"; outside the precondition
the model reports an error and leaves the primitive as it is. -/
def refInit : MutexState → Option (Word × MutexState)
  | .Uninitialized => some (0, .Unlocked)
  | s => some (EBUSY, s)

/-- Modelled from the spec: native lock.  Section 4.1: enter "blocks the calling
thread until it can acquire the mutex exclusively, or, if the calling thread
already owns it, increments the recursion depth without blocking"; `none` is
the blocked call. -/
def refLock (t : Thread) : MutexState → Option (Word × MutexState)
  | .Unlocked => some (0, .Locked t 1)
  | .Locked o d => if o = t then some (0, .Locked o (d + 1)) else none
  | .Uninitialized => some (EINVAL, .Uninitialized)
  | .Disposed => some (EINVAL, .Disposed)

/-- Modelled from the spec: native unlock.  Section 4.1: exit "decrements
recursion depth; releases the mutex to other waiters only when depth reaches
zero", and section 8: an exit by a thread that does not hold the mutex is
"detected as an error" and "must not corrupt the mutex's state". -/
def refUnlock (t : Thread) : MutexState → Option (Word × MutexState)
  | .Unlocked => some (EPERM, .Unlocked)
  | .Locked o d =>
    if o = t then some (0, if d ≤ 1 then .Unlocked else .Locked o (d - 1))
    else some (EPERM, .Locked o d)
  | .Uninitialized => some (EINVAL, .Uninitialized)
  | .Disposed => some (EINVAL, .Disposed)

/-- Modelled from the spec: native destroy.  Section 3: dispose "is only valid
when the mutex is not currently held by any thread". -/
def refDestroy : MutexState → Option (Word × MutexState)
  | .Unlocked => some (0, .Disposed)
  | .Locked o d => some (EBUSY, .Locked o d)
  | .Uninitialized => some (EINVAL, .Uninitialized)
  | .Disposed => some (EINVAL, .Disposed)

/-- The recursion depth of a thread on the primitive. -/
def depthOf (t : Thread) : MutexState → Nat
  | .Locked o d => if o = t then d else 0
  | _ => 0

/-- Modelled from the spec: the hypervisor's holds-monitor query.  Section 8:
true "if and only if the calling thread currently has a recursion depth ≥ 1". -/
def refHolds (t : Thread) (s : MutexState) : Option (Word × MutexState) :=
  some (if 1 ≤ depthOf t s then 1 else 0, s)

/-- The handle that monitor creation returns in the reference model. -/
def refMonitor : Word := 1

/-- Modelled from the spec: the native calls of the three hosts over the one
state machine of section 4.1, for the calling thread `t`.  The attribute calls
of POSIX succeed and leave the primitive alone. -/
def refNative (t : Thread) : NativeCall → MutexState → Option (Word × MutexState)
  | .mutex_init _ _, s => refInit s
  | .mutex_lock _, s => refLock t s
  | .mutex_unlock _, s => refUnlock t s
  | .mutex_destroy _, s => refDestroy s
  | .pthread_mutexattr_init, s => some (0, s)
  | .pthread_mutexattr_settype _, s => some (0, s)
  | .pthread_mutex_init _, s => refInit s
  | .pthread_mutexattr_destroy, s => some (0, s)
  | .pthread_mutex_lock _, s => refLock t s
  | .pthread_mutex_unlock _, s => refUnlock t s
  | .pthread_mutex_destroy _, s => refDestroy s
  | .guestvmXen_monitor_create, s => (refInit s).map fun p => (refMonitor, p.2)
  | .guestvmXen_monitor_enter _, s => refLock t s
  | .guestvmXen_monitor_exit _, s => refUnlock t s
  | .guestvmXen_holds_monitor _, s => refHolds t s

/-- The reference host as seen by thread `t`. -/
def refEnv (t : Thread) : Env MutexState where
  self := t
  native := refNative t

/-- Storage that has not been initialized, over the reference host. -/
def World.fresh : World MutexState where
  host := .Uninitialized
  mem := fun _ => 0
  calls := []
  trace := []

/-! ## The native primitive as it is configured -/

/-- What a native primitive has been created to do: whether it is recursive,
and whether it is error-checking. -/
structure Semantics where
  recursive : Bool
  errorcheck : Bool
  deriving DecidableEq, Repr

/-- The error code for a relock that an error-checking primitive detects. -/
def EDEADLK : Word := 35

/-- Modelled from the spec: native lock of a primitive created with the given
semantics.  Glossary: a recursive mutex is one "that the owning thread may
re-acquire without blocking, tracked via a per-acquisition depth counter";
section 4.1: a non-zero code for a "deadlock detected by an error-checking
primitive".  On a primitive that is neither, the owner that locks again stays
blocked on itself. -/
def cfgLock (sem : Semantics) (t : Thread) : MutexState → Option (Word × MutexState)
  | .Unlocked => some (0, .Locked t 1)
  | .Locked o d =>
    if o = t then
      if sem.recursive then some (0, .Locked o (d + 1))
      else if sem.errorcheck then some (EDEADLK, .Locked o d)
      else none
    else none
  | .Uninitialized => some (EINVAL, .Uninitialized)
  | .Disposed => some (EINVAL, .Disposed)

/-- Modelled from the spec: native unlock of a primitive created with the given
semantics.  Glossary: an error-checking mutex "detects usage violations (e.g.,
unlock by non-owner) and reports them as errors rather than producing
undefined behavior"; section 8: such an exit "must not corrupt the mutex's
state".  A primitive that is not error-checking reports nothing: the unlock of
a thread that does not hold it returns `0` and the lock is gone. -/
def cfgUnlock (sem : Semantics) (t : Thread) : MutexState → Option (Word × MutexState)
  | .Unlocked => if sem.errorcheck then some (EPERM, .Unlocked) else some (0, .Unlocked)
  | .Locked o d =>
    if o = t then some (0, if d ≤ 1 then .Unlocked else .Locked o (d - 1))
    else if sem.errorcheck then some (EPERM, .Locked o d)
    else some (0, .Unlocked)
  | .Uninitialized => some (EINVAL, .Uninitialized)
  | .Disposed => some (EINVAL, .Disposed)

/-- The local `mutex_attribute` of `mutex_initialize`: not initialized,
initialized with the default type, or set to a type. -/
inductive AttrState where
  | uninitialized
  | default
  | typed (type : Nat)
  deriving DecidableEq, Repr

/-- Modelled from the spec: what a Solaris primitive created with `flags` does.
Section 2: the Solaris backend "wraps the native Solaris mutex with equivalent
recursive + error-check flags"; each of the two semantics is had when the bits
of its flag are among the flags. -/
def solarisSemantics (K : Constants) (flags : Nat) : Semantics where
  recursive := flags &&& K.LOCK_RECURSIVE == K.LOCK_RECURSIVE
  errorcheck := flags &&& K.LOCK_ERRORCHECK == K.LOCK_ERRORCHECK

/-- Modelled from the spec: what a POSIX primitive created with an attribute
does.  Section 2: the POSIX mutex that `mutex.c` configures is "configured for
recursive, error-checked behavior", and the type it is configured with is
`PTHREAD_MUTEX_RECURSIVE`.  The model takes the mutex of the default attribute
and of any other type for the plain mutex, which is neither; an attribute that
is not initialized creates nothing. -/
def posixSemantics (K : Constants) : AttrState → Option Semantics
  | .uninitialized => none
  | .default => some ⟨false, false⟩
  | .typed ty =>
    if ty = K.PTHREAD_MUTEX_RECURSIVE then some ⟨true, true⟩ else some ⟨false, false⟩

/-- Modelled from the spec: the monitor of the hypervisor, which is created
without any configuration.  Section 3: "acquisition is recursive"; section 4.1:
an exit of a thread that does not hold it is a failure. -/
def monitorSemantics : Semantics := ⟨true, true⟩

/-- The state of the host that keeps the configuration: the attribute, the
semantics the primitive was created with, and the state of the primitive. -/
structure CfgState where
  attr : AttrState
  sem : Semantics
  st : MutexState
  deriving DecidableEq, Repr

/-- The host before `mutex_initialize`: no attribute, no primitive. -/
def CfgState.fresh : CfgState where
  attr := .uninitialized
  sem := ⟨false, false⟩
  st := .Uninitialized

/-- Creation of the primitive with the given semantics, on uninitialized
storage (`refInit`); a creation that fails leaves the host as it is. -/
def cfgCreate (sem : Semantics) (answer : Word) (s : CfgState) : Option (Word × CfgState) :=
  match s.st with
  | .Uninitialized => some (answer, { s with sem := sem, st := .Unlocked })
  | _ => some (EBUSY, s)

/-- Runs a call on the primitive inside the host. -/
def cfgOn (f : MutexState → Option (Word × MutexState)) (s : CfgState) :
    Option (Word × CfgState) :=
  (f s.st).map fun p => (p.1, { s with st := p.2 })

/-- Modelled from the spec: the native calls of the three hosts for the calling
thread `t`, with the configuration kept: the primitive does what the flags
(Solaris) or the attribute (POSIX) that `mutex_initialize` hands over say. -/
def cfgNative (K : Constants) (t : Thread) : NativeCall → CfgState → Option (Word × CfgState)
  | .mutex_init _ flags, s => cfgCreate (solarisSemantics K flags) 0 s
  | .mutex_lock _, s => cfgOn (cfgLock s.sem t) s
  | .mutex_unlock _, s => cfgOn (cfgUnlock s.sem t) s
  | .mutex_destroy _, s => cfgOn refDestroy s
  | .pthread_mutexattr_init, s => some (0, { s with attr := .default })
  | .pthread_mutexattr_settype ty, s =>
    match s.attr with
    | .uninitialized => some (EINVAL, s)
    | _ => some (0, { s with attr := .typed ty })
  | .pthread_mutex_init _, s =>
    match posixSemantics K s.attr with
    | none => some (EINVAL, s)
    | some sem => cfgCreate sem 0 s
  | .pthread_mutexattr_destroy, s => some (0, { s with attr := .uninitialized })
  | .pthread_mutex_lock _, s => cfgOn (cfgLock s.sem t) s
  | .pthread_mutex_unlock _, s => cfgOn (cfgUnlock s.sem t) s
  | .pthread_mutex_destroy _, s => cfgOn refDestroy s
  | .guestvmXen_monitor_create, s => cfgCreate monitorSemantics refMonitor s
  | .guestvmXen_monitor_enter _, s => cfgOn (cfgLock s.sem t) s
  | .guestvmXen_monitor_exit _, s => cfgOn (cfgUnlock s.sem t) s
  | .guestvmXen_holds_monitor _, s => cfgOn (refHolds t) s

/-- The host that keeps the configuration, as seen by thread `t`. -/
def cfgEnv (K : Constants) (t : Thread) : Env CfgState where
  self := t
  native := cfgNative K t

/-- Storage that has not been initialized, over the host that keeps the
configuration. -/
def World.unconfigured : World CfgState where
  host := CfgState.fresh
  mem := fun _ => 0
  calls := []
  trace := []

/-- Recursive, in the words of the glossary: the owning thread may re-acquire
the primitive without blocking, and the depth counter goes up by one. -/
def Recursive (sem : Semantics) : Prop :=
  ∀ (t : Thread) (d : Nat), cfgLock sem t (.Locked t (d + 1)) = some (0, .Locked t (d + 2))

/-- Error-checking, in the words of the glossary and of section 8: an unlock of
a thread that does not hold the primitive is reported as an error, a non-zero
code, and leaves the state of the primitive as it is. -/
def ErrorChecking (sem : Semantics) : Prop :=
  (∀ (t o : Thread) (d : Nat), o ≠ t →
      ∃ r, r ≠ 0 ∧ cfgUnlock sem t (.Locked o d) = some (r, .Locked o d)) ∧
    ∀ t : Thread, ∃ r, r ≠ 0 ∧ cfgUnlock sem t .Unlocked = some (r, .Unlocked)

/-! ## Vocabulary of the statements -/

/-- The native calls that a run of `p` from `w` adds to the record. -/
def callsMade {σ α : Type} (env : Env σ) (p : Prog α) (w : World σ) : List NativeCall :=
  (run env p w).2.calls.drop w.calls.length

/-- The lines that a run of `p` from `w` adds to the trace. -/
def linesTraced {σ α : Type} (env : Env σ) (p : Prog α) (w : World σ) : List TraceLine :=
  (run env p w).2.trace.drop w.trace.length

/-- The four configuration steps of the POSIX branch of `mutex_initialize`
(lines 35, 38, 41 and 44), in the order of the source. -/
def posixSteps (K : Constants) (mutex : Mutex) : List NativeCall :=
  [.pthread_mutexattr_init, .pthread_mutexattr_settype K.PTHREAD_MUTEX_RECURSIVE,
    .pthread_mutex_init mutex, .pthread_mutexattr_destroy]

/-- The steps of a list up to and including the first one that reports a
failure; the steps after it are left out. -/
def untilFailure (ans : NativeCall → Word) : List NativeCall → List NativeCall
  | [] => []
  | c :: cs => c :: (if ans c != 0 then [] else untilFailure ans cs)

/-- The mutex types that a list of native calls hands to
`pthread_mutexattr_settype`. -/
def requestedTypes : List NativeCall → List Nat
  | [] => []
  | .pthread_mutexattr_settype t :: cs => t :: requestedTypes cs
  | _ :: cs => requestedTypes cs

/-- The values of the constants in the headers of the hosts: `LOCK_RECURSIVE`
is `0x04` and `LOCK_ERRORCHECK` is `0x02` in the Solaris `synch.h`,
`PTHREAD_MUTEX_RECURSIVE` is `1` in the Linux `pthread.h`. -/
def hostHeaders : Constants where
  LOCK_RECURSIVE := 4
  LOCK_ERRORCHECK := 2
  PTHREAD_MUTEX_RECURSIVE := 1

/-- Two programs behave alike from `w`: the same outcome (returned value or
abort), the same state of the host, the same storage and the same native
calls with the same arguments.  The trace is the one thing left out. -/
def SameBehaviour {σ α : Type} (env : Env σ) (w : World σ) (p q : Prog α) : Prop :=
  (run env p w).1 = (run env q w).1 ∧ (run env p w).2.host = (run env q w).2.host ∧
    (run env p w).2.mem = (run env q w).2.mem ∧ (run env p w).2.calls = (run env q w).2.calls

/-- A program that has no `log_println` node. -/
inductive Silent {α : Type} : Prog α → Prop where
  | ret (a : α) : Silent (.ret a)
  | fatal (f : Fatal) : Silent (.fatal f)
  | thread_self (k : Thread → Prog α) : (∀ t, Silent (k t)) → Silent (.thread_self k)
  | load (p : Mutex) (k : Word → Prog α) : (∀ v, Silent (k v)) → Silent (.load p k)
  | store (p : Mutex) (v : Word) (k : Prog α) : Silent k → Silent (.store p v k)
  | native (c : NativeCall) (k : Word → Prog α) : (∀ r, Silent (k r)) → Silent (.native c k)

/-- A trace line is labelled with the name of an operation when its format
starts with that name. -/
def labelled (name : String) (line : TraceLine) : Bool :=
  name.data.isPrefixOf line.1.data

/-- Runs calls one after the other from `w` and lists, for each call made, its
outcome and the world it leaves; a call that does not return ends the run. -/
def runAll {σ α : Type} (env : Env σ) : List (Prog α) → World σ → List (Outcome α × World σ)
  | [], _ => []
  | p :: ps, w =>
    run env p w ::
      (match (run env p w).1 with
        | .returned _ => runAll env ps (run env p w).2
        | _ => [])

/-- The state of the primitive when thread `t` has recursion depth `d`. -/
def lockedAt (t : Thread) (d : Nat) : MutexState :=
  if d = 0 then .Unlocked else .Locked t d

/-- A call of `mutex_enter` or `mutex_exit` that has returned to its caller:
the thread that made it, which of the two functions it was, and the status it
returned. -/
structure Event where
  thread : Thread
  isEnter : Bool
  status : Word
  deriving DecidableEq, Repr

/-- The recursion depth of thread `t` as the callers of `mutex.c` count it from
the statuses handed to them: the calls of `mutex_enter` of `t` that returned
`0`, less its calls of `mutex_exit` that returned `0`.  The newest event is
the head of the list. -/
def recursionDepth (t : Thread) : List Event → Nat
  | [] => 0
  | ev :: h =>
    if ev.thread = t ∧ ev.status = 0 then
      (if ev.isEnter then recursionDepth t h + 1 else recursionDepth t h - 1)
    else recursionDepth t h

/-- The worlds that are reached over the reference host from uninitialized
storage by a `mutex_initialize` that returns, followed by any interleaving of
calls of `mutex_enter` and `mutex_exit` of any threads that return, together
with the history of those calls.  A call that stays blocked is no step, and
after an abort there is no further step. -/
inductive Interleaving (K : Constants) (b : Backend) (lg : Bool) (m : Mutex) :
    World MutexState → List Event → Prop where
  | initialized (t : Thread) (w : World MutexState) :
      w.host = .Uninitialized →
      (run (refEnv t) ( mutex_initialize K b lg m) w).1 = .returned () →
      Interleaving K b lg m (run (refEnv t) ( mutex_initialize K b lg m) w).2 []
  | enter (t : Thread) (e : Bool → Mutex → Prog Word) (r : Word) (w : World MutexState)
      (h : List Event) :
      Interleaving K b lg m w h → compiled_mutex_enter b = some e →
      (run (refEnv t) (e lg m) w).1 = .returned r →
      Interleaving K b lg m (run (refEnv t) (e lg m) w).2 (⟨t, true, r⟩ :: h)
  | exit (t : Thread) (e : Bool → Mutex → Prog Word) (r : Word) (w : World MutexState)
      (h : List Event) :
      Interleaving K b lg m w h → compiled_mutex_exit b = some e →
      (run (refEnv t) (e lg m) w).1 = .returned r →
      Interleaving K b lg m (run (refEnv t) (e lg m) w).2 (⟨t, false, r⟩ :: h)

/-- The calls of one thread that nests `n` deep: `n` times `enter`, then `n`
times `exit`. -/
def nested {α : Type} (n : Nat) (enter exit : Prog α) : List (Prog α) :=
  List.replicate n enter ++ List.replicate n exit

/-- The scenario of section 8 on the POSIX backend: thread `1` initializes the
mutex at `8`, enters it twice and exits it once. -/
def heldOnce : World MutexState :=
  (run (refEnv 1) (POSIX.mutex_exit false 8)
    (run (refEnv 1) (POSIX.mutex_enter false 8)
      (run (refEnv 1) (POSIX.mutex_enter false 8)
        (run (refEnv 1) ( mutex_initialize hostHeaders .POSIX false 8) World.fresh).2).2).2).2

/-- The history of the scenario `heldOnce`: two calls of `mutex_enter` and one
of `mutex_exit` of thread `1`, each of which returned `0`. -/
def heldOnceHistory : List Event :=
  [⟨1, false, 0⟩, ⟨1, true, 0⟩, ⟨1, true, 0⟩]

/-! ## Running programs: basic facts -/

@[simp] theorem bind_eq {α β : Type} (x : Prog α) (f : α → Prog β) : x >>= f = x.bind f := rfl

@[simp] theorem pure_eq {α : Type} (a : α) : (pure a : Prog α) = Prog.ret a := rfl

theorem or_and_left_flag (a b : Nat) : (a ||| b) &&& a = a := by
  apply Nat.eq_of_testBit_eq
  intro i
  simp only [Nat.testBit_and, Nat.testBit_or]
  cases a.testBit i <;> simp

theorem or_and_right_flag (a b : Nat) : (a ||| b) &&& b = b := by
  apply Nat.eq_of_testBit_eq
  intro i
  simp only [Nat.testBit_and, Nat.testBit_or]
  cases b.testBit i <;> simp

/-! ## Enter and exit: status codes -/

/-- C1, as the code has it: on Solaris and POSIX `mutex_enter` returns the
status `r` of the native lock call unchanged and never aborts; on the
hypervisor backend it returns `0` when `guestvmXen_monitor_enter` returns `0`
and aborts through `c_ASSERT(false)` when it returns a non-zero code. -/
theorem mutex_enter_status {σ : Type} (env : Env σ) (w : World σ) (lg : Bool) (m : Mutex)
    (r : Word) (s : σ) :
    (env.native (.mutex_lock m) w.host = some (r, s) →
      (run env (SOLARIS.mutex_enter lg m) w).1 = .returned r) ∧
    (env.native (.pthread_mutex_lock m) w.host = some (r, s) →
      (run env (POSIX.mutex_enter lg m) w).1 = .returned r) ∧
    (env.native (.guestvmXen_monitor_enter (w.mem m)) w.host = some (r, s) →
      (run env (GUESTVMXEN.mutex_enter lg m) w).1
        = if r = 0 then .returned 0 else .aborted .ASSERT) := by
  refine ⟨?_, ?_, ?_⟩
  · intro h
    cases lg <;> simp [SOLARIS.mutex_enter, call, thread_self, log_println, Prog.bind, run, h]
  · intro h
    cases lg <;> simp [POSIX.mutex_enter, call, thread_self, log_println, Prog.bind, run, h]
  · intro h
    cases lg <;> by_cases hr : r = 0 <;>
      simp [GUESTVMXEN.mutex_enter, call, load, c_ASSERT, thread_self, log_println,
        Prog.bind, run, h, hr]

/-- C1, witness: the native lock calls return `5`; Solaris and POSIX hand the
`5` to the caller, the hypervisor backend aborts. -/
theorem mutex_enter_status_witness :
    (run (answers 0 fun _ => 5) (SOLARIS.mutex_enter false 0) World.blank).1 = .returned 5 ∧
    (run (answers 0 fun _ => 5) (POSIX.mutex_enter false 0) World.blank).1 = .returned 5 ∧
    (run (answers 0 fun _ => 5) (GUESTVMXEN.mutex_enter false 0) World.blank).1
      = .aborted .ASSERT :=
  have h := mutex_enter_status (answers 0 fun _ => 5) World.blank false 0 5 ()
  ⟨h.1 rfl, h.2.1 rfl, h.2.2 rfl⟩

/-- C1, counterexample: on the hypervisor backend, when the native enter call
returns the status `1`, `mutex_enter` does not return `1` to its caller: the
process is aborted. -/
theorem mutex_enter_guestvmxen_aborts :
    (run (answers 0 fun _ => 1) (GUESTVMXEN.mutex_enter false 0) World.blank).1
        = .aborted .ASSERT ∧
    (run (answers 0 fun _ => 1) (GUESTVMXEN.mutex_enter false 0) World.blank).1
        ≠ .returned 1 := by
  decide

/-- C2, as the code has it: on Solaris and POSIX `mutex_exit` returns the
status `r` of the native unlock call unchanged and never aborts; on the
hypervisor backend it returns `0` when `guestvmXen_monitor_exit` returns `0`
and aborts through `c_ASSERT(false)` when it returns a non-zero code. -/
theorem mutex_exit_status {σ : Type} (env : Env σ) (w : World σ) (lg : Bool) (m : Mutex)
    (r : Word) (s : σ) :
    (env.native (.mutex_unlock m) w.host = some (r, s) →
      (run env (SOLARIS.mutex_exit lg m) w).1 = .returned r) ∧
    (env.native (.pthread_mutex_unlock m) w.host = some (r, s) →
      (run env (POSIX.mutex_exit lg m) w).1 = .returned r) ∧
    (env.native (.guestvmXen_monitor_exit (w.mem m)) w.host = some (r, s) →
      (run env (GUESTVMXEN.mutex_exit lg m) w).1
        = if r = 0 then .returned 0 else .aborted .ASSERT) := by
  refine ⟨?_, ?_, ?_⟩
  · intro h
    cases lg <;> simp [SOLARIS.mutex_exit, call, thread_self, log_println, Prog.bind, run, h]
  · intro h
    cases lg <;> simp [POSIX.mutex_exit, call, thread_self, log_println, Prog.bind, run, h]
  · intro h
    cases lg <;> by_cases hr : r = 0 <;>
      simp [GUESTVMXEN.mutex_exit, call, load, c_ASSERT, thread_self, log_println,
        Prog.bind, run, h, hr]

/-- C2, witness: thread `7` exits a mutex of the reference model that nobody
holds; the native unlock returns `EPERM`, which Solaris and POSIX hand to the
caller and on which the hypervisor backend aborts. -/
theorem mutex_exit_status_witness :
    (run (refEnv 7) (SOLARIS.mutex_exit false 0)
      { World.fresh with host := .Unlocked }).1 = .returned EPERM ∧
    (run (refEnv 7) (POSIX.mutex_exit false 0)
      { World.fresh with host := .Unlocked }).1 = .returned EPERM ∧
    (run (refEnv 7) (GUESTVMXEN.mutex_exit false 0)
      { World.fresh with host := .Unlocked }).1 = .aborted .ASSERT :=
  have h := mutex_exit_status (refEnv 7) { World.fresh with host := .Unlocked } false 0
    EPERM .Unlocked
  ⟨h.1 rfl, h.2.1 rfl, h.2.2 rfl⟩

/-- C2, counterexample: on the hypervisor backend, when the calling thread
does not hold the monitor and the native exit call reports it with a non-zero
code, `mutex_exit` does not return a status: the process is aborted. -/
theorem mutex_exit_guestvmxen_aborts :
    (run (refEnv 7) (GUESTVMXEN.mutex_exit false 0)
      { World.fresh with host := .Unlocked }).1 = .aborted .ASSERT ∧
    (run (answers 0 fun _ => 1) (GUESTVMXEN.mutex_exit false 0) World.blank).1
        = .aborted .ASSERT := by
  decide

/-! ## Initialize and dispose: fatal failures -/

theorem posix_calls (K : Constants) (lg : Bool) (m : Mutex) (self : Thread)
    (ans : NativeCall → Word) (w : World Unit) :
    callsMade (answers self ans) ( mutex_initialize K .POSIX lg m) w
        = untilFailure ans (posixSteps K m) := by
  cases lg <;> by_cases h1 : ans .pthread_mutexattr_init = 0 <;>
    by_cases h2 : ans (.pthread_mutexattr_settype K.PTHREAD_MUTEX_RECURSIVE) = 0 <;>
    by_cases h3 : ans (.pthread_mutex_init m) = 0 <;>
    by_cases h4 : ans .pthread_mutexattr_destroy = 0 <;>
    simp [callsMade, posixSteps, untilFailure, mutex_initialize, call, c_ASSERT, thread_self,
      log_println, Prog.bind, run, answers, h1, h2, h3, h4]

/-- C3, as the code has it: on POSIX `mutex_initialize` aborts if and only if
one of the four configuration steps returns non-zero, and the native calls it
makes are the steps up to and including the first failing one; on Solaris it
aborts if and only if the native `mutex_init` returns non-zero; when every step
returns `0` it returns normally.  On the hypervisor backend it never aborts:
whatever `guestvmXen_monitor_create` returns is stored in `*mutex`. -/
theorem mutex_initialize_fatal (K : Constants) (lg : Bool) (m : Mutex) (self : Thread)
    (ans : NativeCall → Word) (w : World Unit) :
    ((run (answers self ans) ( mutex_initialize K .POSIX lg m) w).1 = .aborted .ASSERT ↔
        (ans .pthread_mutexattr_init ≠ 0 ∨
          ans (.pthread_mutexattr_settype K.PTHREAD_MUTEX_RECURSIVE) ≠ 0 ∨
          ans (.pthread_mutex_init m) ≠ 0 ∨ ans .pthread_mutexattr_destroy ≠ 0)) ∧
    ((run (answers self ans) ( mutex_initialize K .POSIX lg m) w).1 = .returned () ↔
        (ans .pthread_mutexattr_init = 0 ∧
          ans (.pthread_mutexattr_settype K.PTHREAD_MUTEX_RECURSIVE) = 0 ∧
          ans (.pthread_mutex_init m) = 0 ∧ ans .pthread_mutexattr_destroy = 0)) ∧
    callsMade (answers self ans) ( mutex_initialize K .POSIX lg m) w
        = untilFailure ans (posixSteps K m) ∧
    ((run (answers self ans) ( mutex_initialize K .SOLARIS lg m) w).1 = .aborted .ASSERT ↔
        ans (.mutex_init m (K.LOCK_RECURSIVE ||| K.LOCK_ERRORCHECK)) ≠ 0) ∧
    ((run (answers self ans) ( mutex_initialize K .SOLARIS lg m) w).1 = .returned () ↔
        ans (.mutex_init m (K.LOCK_RECURSIVE ||| K.LOCK_ERRORCHECK)) = 0) ∧
    (run (answers self ans) ( mutex_initialize K .GUESTVMXEN lg m) w).1 = .returned () ∧
    (run (answers self ans) ( mutex_initialize K .GUESTVMXEN lg m) w).2.mem m
        = ans .guestvmXen_monitor_create := by
  refine ⟨?_, ?_, ?_, ?_, ?_, ?_, ?_⟩
  · cases lg <;> by_cases h1 : ans .pthread_mutexattr_init = 0 <;>
      by_cases h2 : ans (.pthread_mutexattr_settype K.PTHREAD_MUTEX_RECURSIVE) = 0 <;>
      by_cases h3 : ans (.pthread_mutex_init m) = 0 <;>
      by_cases h4 : ans .pthread_mutexattr_destroy = 0 <;>
      simp [call, mutex_initialize, call, c_ASSERT, thread_self, log_println, Prog.bind, run,
        answers, h1, h2, h3, h4]
  · cases lg <;> by_cases h1 : ans .pthread_mutexattr_init = 0 <;>
      by_cases h2 : ans (.pthread_mutexattr_settype K.PTHREAD_MUTEX_RECURSIVE) = 0 <;>
      by_cases h3 : ans (.pthread_mutex_init m) = 0 <;>
      by_cases h4 : ans .pthread_mutexattr_destroy = 0 <;>
      simp [call, mutex_initialize, call, c_ASSERT, thread_self, log_println, Prog.bind, run,
        answers, h1, h2, h3, h4]
  · exact posix_calls K lg m self ans w
  · cases lg <;>
      by_cases h1 : ans (.mutex_init m (K.LOCK_RECURSIVE ||| K.LOCK_ERRORCHECK)) = 0 <;>
      simp [call, mutex_initialize, call, c_ASSERT, thread_self, log_println, Prog.bind, run,
        answers, h1]
  · cases lg <;>
      by_cases h1 : ans (.mutex_init m (K.LOCK_RECURSIVE ||| K.LOCK_ERRORCHECK)) = 0 <;>
      simp [call, mutex_initialize, call, c_ASSERT, thread_self, log_println, Prog.bind, run,
        answers, h1]
  · cases lg <;>
      simp [call, mutex_initialize, call, store, thread_self, log_println, Prog.bind, run, answers]
  · cases lg <;>
      simp [call, mutex_initialize, call, store, thread_self, log_println, Prog.bind, run, answers]

/-- C3, counterexample: on the hypervisor backend monitor creation fails, it
returns the null handle, and `mutex_initialize` returns normally with the null
handle stored in `*mutex`; the process is not aborted. -/
theorem mutex_initialize_guestvmxen_unchecked :
    (run (answers 0 fun _ => 0) ( mutex_initialize hostHeaders .GUESTVMXEN false 8)
        World.blank).1 = .returned () ∧
    (run (answers 0 fun _ => 0) ( mutex_initialize hostHeaders .GUESTVMXEN false 8)
        World.blank).2.mem 8 = 0 ∧
    (run (answers 0 fun _ => 0) ( mutex_initialize hostHeaders .GUESTVMXEN false 8)
        World.blank).1 ≠ .aborted .ASSERT := by
  refine ⟨by rfl, by rfl, by decide⟩

/-- C4, as the code has it: the Solaris and POSIX branches define
`mutex_dispose`, and there it aborts if and only if the native destroy call
returns non-zero and returns normally when that call returns `0`; the
hypervisor branch defines no `mutex_dispose`. -/
theorem mutex_dispose_fatal {σ : Type} (env : Env σ) (w : World σ) (lg : Bool) (m : Mutex)
    (r : Word) (s : σ) :
    compiled_mutex_dispose .SOLARIS = some SOLARIS.mutex_dispose ∧
    compiled_mutex_dispose .POSIX = some POSIX.mutex_dispose ∧
    compiled_mutex_dispose .GUESTVMXEN = none ∧
    (env.native (.mutex_destroy m) w.host = some (r, s) →
      ((run env (SOLARIS.mutex_dispose lg m) w).1 = .aborted .ASSERT ↔ r ≠ 0) ∧
      ((run env (SOLARIS.mutex_dispose lg m) w).1 = .returned () ↔ r = 0)) ∧
    (env.native (.pthread_mutex_destroy m) w.host = some (r, s) →
      ((run env (POSIX.mutex_dispose lg m) w).1 = .aborted .ASSERT ↔ r ≠ 0) ∧
      ((run env (POSIX.mutex_dispose lg m) w).1 = .returned () ↔ r = 0)) := by
  refine ⟨rfl, rfl, rfl, ?_, ?_⟩
  · intro h
    cases lg <;> by_cases hr : r = 0 <;>
      simp [SOLARIS.mutex_dispose, call, c_ASSERT, thread_self, log_println, Prog.bind, run,
        h, hr]
  · intro h
    cases lg <;> by_cases hr : r = 0 <;>
      simp [POSIX.mutex_dispose, call, c_ASSERT, thread_self, log_println, Prog.bind, run,
        h, hr]

/-- C4, witness: the native destroy calls return `16`, and `mutex_dispose`
aborts on Solaris and on POSIX. -/
theorem mutex_dispose_fatal_witness :
    (run (answers 0 fun _ => 16) (SOLARIS.mutex_dispose false 0) World.blank).1
        = .aborted .ASSERT ∧
    (run (answers 0 fun _ => 16) (POSIX.mutex_dispose false 0) World.blank).1
        = .aborted .ASSERT :=
  have h := mutex_dispose_fatal (answers 0 fun _ => 16) World.blank false 0 16 ()
  ⟨(h.2.2.2.1 rfl).1.2 (by decide), (h.2.2.2.2 rfl).1.2 (by decide)⟩

/-- C4, counterexample: the build for the hypervisor backend has no
`mutex_dispose`. -/
theorem mutex_dispose_guestvmxen_absent :
    (compiled_mutex_dispose Backend.GUESTVMXEN).isSome = false ∧
    (compiled_mutex_enter Backend.GUESTVMXEN).isSome = true := by
  exact ⟨rfl, rfl⟩

/-! ## Tracing -/

theorem run_trace_irrelevant {σ α : Type} (env : Env σ) (p : Prog α) :
    ∀ (w : World σ) (tr : List TraceLine),
      (run env p { w with trace := tr }).1 = (run env p w).1 ∧
      (run env p { w with trace := tr }).2.host = (run env p w).2.host ∧
      (run env p { w with trace := tr }).2.mem = (run env p w).2.mem ∧
      (run env p { w with trace := tr }).2.calls = (run env p w).2.calls := by
  induction p with
  | ret a => intro w tr; simp [run]
  | fatal f => intro w tr; simp [run]
  | thread_self k ih => intro w tr; simpa [run] using ih env.self w tr
  | log_println s as k ih =>
    intro w tr
    have h1 := ih w (tr ++ [(s, as)])
    have h2 := ih w (w.trace ++ [(s, as)])
    simp only [run]
    exact ⟨h1.1.trans h2.1.symm, h1.2.1.trans h2.2.1.symm, h1.2.2.1.trans h2.2.2.1.symm,
      h1.2.2.2.trans h2.2.2.2.symm⟩
  | load p k ih => intro w tr; simpa [run] using ih (w.mem p) w tr
  | store p v k ih =>
    intro w tr
    simpa [run] using ih { w with mem := Function.update w.mem p v } tr
  | native c k ih =>
    intro w tr
    simp only [run]
    cases h : env.native c w.host with
    | none => simp
    | some rs =>
      obtain ⟨r, s⟩ := rs
      simpa using ih r { w with host := s, calls := w.calls ++ [c] } tr

theorem sameBehaviour_traced {σ α : Type} (env : Env σ) (w : World σ) (format : String)
    (m : Mutex) (q : Prog α) :
    SameBehaviour env w (.thread_self fun t => .log_println format [t, m] q) q := by
  have h := run_trace_irrelevant env q w (w.trace ++ [(format, [env.self, m])])
  simpa [SameBehaviour, run] using h

theorem silent_run {σ α : Type} (env : Env σ) (p : Prog α) (hp : Silent p) :
    ∀ w : World σ, (run env p w).2.trace = w.trace := by
  induction hp with
  | ret a => intro w; rfl
  | fatal x => intro w; rfl
  | thread_self k _ ih => intro w; simpa [run] using ih env.self w
  | load p k _ ih => intro w; simpa [run] using ih (w.mem p) w
  | store p v k _ ih => intro w; simpa [run] using ih _
  | native c k _ ih =>
    intro w
    simp only [run]
    cases h : env.native c w.host with
    | none => simp
    | some rs =>
      obtain ⟨r, s⟩ := rs
      simpa using ih r _

theorem silent_untraced_trace {σ α : Type} (env : Env σ) (p : Prog α) (hp : Silent p)
    (w : World σ) : linesTraced env p w = [] := by
  simp [linesTraced, silent_run env p hp w]

/-- With tracing enabled, `mutex_initialize` is the thread query and one
`log_println`, followed by the function as built with tracing disabled. -/
theorem traced_init (K : Constants) (b : Backend) (m : Mutex) :
     mutex_initialize K b true m = .thread_self fun t =>
      .log_println "mutex_initialize(%p, %p)" [t, m] ( mutex_initialize K b false m) := rfl

theorem traced_enter (b : Backend) (e : Bool → Mutex → Prog Word)
    (he : compiled_mutex_enter b = some e) (m : Mutex) :
    ∃ format, e true m = .thread_self fun t => .log_println format [t, m] (e false m) := by
  cases b <;> simp [compiled_mutex_enter] at he <;> subst he <;> exact ⟨_, rfl⟩

theorem traced_exit (b : Backend) (e : Bool → Mutex → Prog Word)
    (he : compiled_mutex_exit b = some e) (m : Mutex) :
    ∃ format, e true m = .thread_self fun t => .log_println format [t, m] (e false m) := by
  cases b <;> simp [compiled_mutex_exit] at he <;> subst he <;> exact ⟨_, rfl⟩

theorem traced_dispose (b : Backend) (e : Bool → Mutex → Prog Unit)
    (he : compiled_mutex_dispose b = some e) (m : Mutex) :
    ∃ format, e true m = .thread_self fun t => .log_println format [t, m] (e false m) := by
  cases b <;> simp [compiled_mutex_dispose] at he <;> subst he <;> exact ⟨_, rfl⟩

theorem traced_isHeld (b : Backend) (e : Bool → Mutex → Prog Word)
    (he : compiled_mutex_isHeld b = some e) (m : Mutex) :
    ∃ format, e true m = .thread_self fun t => .log_println format [t, m] (e false m) := by
  cases b <;> simp [compiled_mutex_isHeld] at he
  subst he
  exact ⟨_, rfl⟩

theorem silent_init (K : Constants) (b : Backend) (m : Mutex) :
    Silent ( mutex_initialize K b false m) := by
  cases b <;>
    simp only [call, mutex_initialize, bind_eq, pure_eq, Prog.bind, call, load, store, c_ASSERT,
      c_UNIMPLEMENTED] <;>
    repeat (first | constructor | intro _ | split)

theorem silent_enter (b : Backend) (e : Bool → Mutex → Prog Word)
    (he : compiled_mutex_enter b = some e) (m : Mutex) : Silent (e false m) := by
  cases b <;> simp [compiled_mutex_enter] at he <;> subst he <;>
    simp only [SOLARIS.mutex_enter, POSIX.mutex_enter, GUESTVMXEN.mutex_enter, bind_eq, pure_eq,
      Prog.bind, call, load, store, c_ASSERT] <;>
    repeat (first | constructor | intro _ | split)

theorem silent_exit (b : Backend) (e : Bool → Mutex → Prog Word)
    (he : compiled_mutex_exit b = some e) (m : Mutex) : Silent (e false m) := by
  cases b <;> simp [compiled_mutex_exit] at he <;> subst he <;>
    simp only [SOLARIS.mutex_exit, POSIX.mutex_exit, GUESTVMXEN.mutex_exit, bind_eq, pure_eq,
      Prog.bind, call, load, store, c_ASSERT] <;>
    repeat (first | constructor | intro _ | split)

theorem silent_dispose (b : Backend) (e : Bool → Mutex → Prog Unit)
    (he : compiled_mutex_dispose b = some e) (m : Mutex) : Silent (e false m) := by
  cases b <;> simp [compiled_mutex_dispose] at he <;> subst he <;>
    simp only [SOLARIS.mutex_dispose, POSIX.mutex_dispose, bind_eq, pure_eq,
      Prog.bind, call, load, store, c_ASSERT] <;>
    repeat (first | constructor | intro _ | split)

theorem silent_isHeld (b : Backend) (e : Bool → Mutex → Prog Word)
    (he : compiled_mutex_isHeld b = some e) (m : Mutex) : Silent (e false m) := by
  cases b <;> simp [compiled_mutex_isHeld] at he
  subst he
  simp only [GUESTVMXEN.mutex_isHeld, bind_eq, pure_eq, Prog.bind, call, load, store, c_ASSERT]
  repeat (first | constructor | intro _ | split)

/-- C9: for every backend, every operation that the backend defines, every
host (every value of `thread_self`, every result of every native call) and
every starting state, the operation built with `log_MONITORS` has the same
outcome (returned value or abort), leaves the same host state and storage and
makes the same native calls with the same arguments as the operation built
without it, and the operation built without it traces nothing. -/
theorem tracing_does_not_influence {σ : Type} (env : Env σ) (w : World σ) (K : Constants)
    (b : Backend) (m : Mutex) :
    (SameBehaviour env w ( mutex_initialize K b true m) ( mutex_initialize K b false m) ∧
      linesTraced env ( mutex_initialize K b false m) w = []) ∧
    (∀ e, compiled_mutex_enter b = some e →
      SameBehaviour env w (e true m) (e false m) ∧ linesTraced env (e false m) w = []) ∧
    (∀ e, compiled_mutex_exit b = some e →
      SameBehaviour env w (e true m) (e false m) ∧ linesTraced env (e false m) w = []) ∧
    (∀ e, compiled_mutex_dispose b = some e →
      SameBehaviour env w (e true m) (e false m) ∧ linesTraced env (e false m) w = []) ∧
    (∀ e, compiled_mutex_isHeld b = some e →
      SameBehaviour env w (e true m) (e false m) ∧ linesTraced env (e false m) w = []) := by
  refine ⟨⟨?_, silent_untraced_trace env _ (silent_init K b m) w⟩, ?_, ?_, ?_, ?_⟩
  · rw [traced_init]
    exact sameBehaviour_traced env w _ m _
  · intro e he
    obtain ⟨format, hf⟩ := traced_enter b e he m
    rw [hf]
    exact ⟨sameBehaviour_traced env w format m _,
      silent_untraced_trace env _ (silent_enter b e he m) w⟩
  · intro e he
    obtain ⟨format, hf⟩ := traced_exit b e he m
    rw [hf]
    exact ⟨sameBehaviour_traced env w format m _,
      silent_untraced_trace env _ (silent_exit b e he m) w⟩
  · intro e he
    obtain ⟨format, hf⟩ := traced_dispose b e he m
    rw [hf]
    exact ⟨sameBehaviour_traced env w format m _,
      silent_untraced_trace env _ (silent_dispose b e he m) w⟩
  · intro e he
    obtain ⟨format, hf⟩ := traced_isHeld b e he m
    rw [hf]
    exact ⟨sameBehaviour_traced env w format m _,
      silent_untraced_trace env _ (silent_isHeld b e he m) w⟩

/-- C9, witness: on the reference host, thread `7` exits a mutex it does not
hold on the POSIX backend; with and without tracing the call returns `EPERM`
after the one native call `pthread_mutex_unlock`. -/
theorem tracing_does_not_influence_witness :
    (run (refEnv 7) (POSIX.mutex_exit true 8) { World.fresh with host := .Unlocked }).1
        = .returned EPERM ∧
    SameBehaviour (refEnv 7) { World.fresh with host := .Unlocked }
      (POSIX.mutex_exit true 8) (POSIX.mutex_exit false 8) ∧
    linesTraced (refEnv 7) (POSIX.mutex_exit false 8)
      { World.fresh with host := .Unlocked } = [] :=
  ⟨rfl, (tracing_does_not_influence (refEnv 7) { World.fresh with host := .Unlocked }
      hostHeaders .POSIX 8).2.2.1 POSIX.mutex_exit rfl⟩

/-- C10, the label of the trace line of the hypervisor backend: with tracing
enabled, `mutex_enter` and `mutex_isHeld` of thread `7` on the mutex at `8`
each emit the one line `mutex_dispose   (%p, %p)`, which carries the name of
`mutex_dispose` and not their own, whereas `mutex_exit` carries its own. -/
theorem guestvmxen_trace_label :
    linesTraced (answers 7 fun _ => 0) (GUESTVMXEN.mutex_enter true 8) World.blank
        = [("mutex_dispose   (%p, %p)", [7, 8])] ∧
    labelled "mutex_enter" ("mutex_dispose   (%p, %p)", [7, 8]) = false ∧
    labelled "mutex_dispose" ("mutex_dispose   (%p, %p)", [7, 8]) = true ∧
    linesTraced (answers 7 fun _ => 0) (GUESTVMXEN.mutex_isHeld true 8) World.blank
        = [("mutex_dispose   (%p, %p)", [7, 8])] ∧
    labelled "mutex_isHeld" ("mutex_dispose   (%p, %p)", [7, 8]) = false ∧
    linesTraced (answers 7 fun _ => 0) (GUESTVMXEN.mutex_exit true 8) World.blank
        = [("mutex_exit     (%p, %p)", [7, 8])] ∧
    labelled "mutex_exit" ("mutex_exit     (%p, %p)", [7, 8]) = true ∧
    linesTraced (answers 7 fun _ => 0) (POSIX.mutex_enter true 8) World.blank
        = [("mutex_enter     (%p, %p)", [7, 8])] ∧
    labelled "mutex_enter" ("mutex_enter     (%p, %p)", [7, 8]) = true := by
  refine ⟨?_, ?_, ?_, ?_, ?_, ?_, ?_, ?_, ?_⟩ <;> decide

/-! ## The wrappers over the reference model -/

theorem refLock_lockedAt (t : Thread) (d : Nat) :
    refLock t (lockedAt t d) = some (0, lockedAt t (d + 1)) := by
  cases d <;> simp [lockedAt, refLock]

theorem refUnlock_lockedAt (t : Thread) (d : Nat) :
    refUnlock t (lockedAt t (d + 1)) = some (0, lockedAt t d) := by
  cases d <;> simp [lockedAt, refUnlock]

theorem depthOf_lockedAt (t : Thread) (d : Nat) : depthOf t (lockedAt t d) = d := by
  cases d <;> simp [lockedAt, depthOf]

/-- Over the reference host, `mutex_enter` of every backend is the native lock. -/
theorem enter_ref (b : Backend) (e : Bool → Mutex → Prog Word)
    (he : compiled_mutex_enter b = some e) (t : Thread) (lg : Bool) (m : Mutex)
    (w : World MutexState) :
    (refLock t w.host = none →
      (run (refEnv t) (e lg m) w).1 = .blocked ∧ (run (refEnv t) (e lg m) w).2.host = w.host) ∧
    (∀ r s, refLock t w.host = some (r, s) →
      (run (refEnv t) (e lg m) w).2.host = s ∧
      (run (refEnv t) (e lg m) w).2.mem = w.mem ∧
      (run (refEnv t) (e lg m) w).1 ≠ .blocked ∧
      (r = 0 → (run (refEnv t) (e lg m) w).1 = .returned 0)) := by
  cases b <;> simp [compiled_mutex_enter] at he <;> subst he <;> cases lg <;>
    (refine ⟨fun h => ?_, fun r s h => ?_⟩) <;>
    first
    | (simp [SOLARIS.mutex_enter, POSIX.mutex_enter, GUESTVMXEN.mutex_enter, call, load, c_ASSERT,
        thread_self, log_println, Prog.bind, run, refEnv, refNative, h]; done)
    | (by_cases hr : r = 0 <;>
        simp [SOLARIS.mutex_enter, POSIX.mutex_enter, GUESTVMXEN.mutex_enter, call, load, c_ASSERT,
          thread_self, log_println, Prog.bind, run, refEnv, refNative, h, hr])

/-- Over the reference host, `mutex_exit` of every backend is the native unlock. -/
theorem exit_ref (b : Backend) (e : Bool → Mutex → Prog Word)
    (he : compiled_mutex_exit b = some e) (t : Thread) (lg : Bool) (m : Mutex)
    (w : World MutexState) :
    ∀ r s, refUnlock t w.host = some (r, s) →
      (run (refEnv t) (e lg m) w).2.host = s ∧
      (run (refEnv t) (e lg m) w).2.mem = w.mem ∧
      (run (refEnv t) (e lg m) w).1 ≠ .blocked ∧
      (r = 0 → (run (refEnv t) (e lg m) w).1 = .returned 0) := by
  cases b <;> simp [compiled_mutex_exit] at he <;> subst he <;> cases lg <;>
    (intro r s h) <;>
    first
    | (simp [SOLARIS.mutex_exit, POSIX.mutex_exit, GUESTVMXEN.mutex_exit, call, load, c_ASSERT,
        thread_self, log_println, Prog.bind, run, refEnv, refNative, h]; done)
    | (by_cases hr : r = 0 <;>
        simp [SOLARIS.mutex_exit, POSIX.mutex_exit, GUESTVMXEN.mutex_exit, call, load, c_ASSERT,
          thread_self, log_println, Prog.bind, run, refEnv, refNative, h, hr])

/-- Over the reference host, `mutex_initialize` of a backend that defines
`mutex_enter` takes uninitialized storage to an unlocked primitive. -/
theorem initialize_ref (K : Constants) (b : Backend) (e : Bool → Mutex → Prog Word)
    (he : compiled_mutex_enter b = some e) (t : Thread) (lg : Bool) (m : Mutex)
    (w : World MutexState) (hw : w.host = .Uninitialized) :
    (run (refEnv t) ( mutex_initialize K b lg m) w).1 = .returned () ∧
    (run (refEnv t) ( mutex_initialize K b lg m) w).2.host = .Unlocked := by
  cases b <;> simp [compiled_mutex_enter] at he <;> cases lg <;>
    simp [call, mutex_initialize, call, store, c_ASSERT, thread_self, log_println, Prog.bind, run,
      refEnv, refNative, refInit, hw]

/-- Over the reference host, `mutex_dispose` of an unlocked primitive returns. -/
theorem dispose_ref (b : Backend) (e : Bool → Mutex → Prog Unit)
    (he : compiled_mutex_dispose b = some e) (t : Thread) (lg : Bool) (m : Mutex)
    (w : World MutexState) (hw : w.host = .Unlocked) :
    (run (refEnv t) (e lg m) w).1 = .returned () ∧
    (run (refEnv t) (e lg m) w).2.host = .Disposed := by
  cases b <;> simp [compiled_mutex_dispose] at he <;> subst he <;> cases lg <;>
    simp [SOLARIS.mutex_dispose, POSIX.mutex_dispose, call, c_ASSERT, thread_self, log_println,
      Prog.bind, run, refEnv, refNative, refDestroy, hw]

theorem runAll_cons_returned {σ α : Type} (env : Env σ) (p : Prog α) (ps : List (Prog α))
    (w : World σ) (a : α) (h : (run env p w).1 = .returned a) :
    runAll env (p :: ps) w = run env p w :: runAll env ps (run env p w).2 := by
  simp [runAll, h]

/-- From depth `k`, `k` exits of the holder return `0` and take the depth down
to `0` one by one. -/
theorem exits_trajectory (b : Backend) (x : Bool → Mutex → Prog Word)
    (hx : compiled_mutex_exit b = some x) (t : Thread) (lg : Bool) (m : Mutex) :
    ∀ (k : Nat) (w : World MutexState), w.host = lockedAt t k →
      (runAll (refEnv t) (List.replicate k (x lg m)) w).map (fun r => (r.1, r.2.host))
        = (List.range k).map fun j => (Outcome.returned (0 : Word), lockedAt t (k - 1 - j)) := by
  intro k
  induction k with
  | zero => intro w _; simp [runAll]
  | succ k ih =>
    intro w hw
    have hu := exit_ref b x hx t lg m w 0 (lockedAt t k)
      (by rw [hw]; exact refUnlock_lockedAt t k)
    have h1 : (run (refEnv t) (x lg m) w).1 = .returned 0 := hu.2.2.2 rfl
    rw [List.replicate_succ, runAll_cons_returned _ _ _ _ _ h1, List.map_cons, ih _ hu.1,
      List.range_succ_eq_map, List.map_cons, List.map_map, h1, hu.1]
    refine congrArg₂ _ (by simp) (List.map_congr_left fun j _ => ?_)
    simp only [Function.comp, Nat.succ_eq_add_one]
    congr 2
    omega

/-- From depth `d`, `n` enters and then `d + n` exits of the holder return `0`;
the depth goes up to `d + n` and then down to `0`, one by one. -/
theorem enters_exits_trajectory (b : Backend) (e x : Bool → Mutex → Prog Word)
    (he : compiled_mutex_enter b = some e) (hx : compiled_mutex_exit b = some x) (t : Thread)
    (lg : Bool) (m : Mutex) :
    ∀ (n d : Nat) (w : World MutexState), w.host = lockedAt t d →
      (runAll (refEnv t) (List.replicate n (e lg m) ++ List.replicate (d + n) (x lg m)) w).map
          (fun r => (r.1, r.2.host))
        = ((List.range n).map fun i => (Outcome.returned (0 : Word), lockedAt t (d + i + 1)))
          ++ (List.range (d + n)).map fun j =>
            (Outcome.returned (0 : Word), lockedAt t (d + n - 1 - j)) := by
  intro n
  induction n with
  | zero =>
    intro d w hw
    simpa using exits_trajectory b x hx t lg m d w hw
  | succ n ih =>
    intro d w hw
    have hl := (enter_ref b e he t lg m w).2 0 (lockedAt t (d + 1))
      (by rw [hw]; exact refLock_lockedAt t d)
    have h1 : (run (refEnv t) (e lg m) w).1 = .returned 0 := hl.2.2.2 rfl
    have hd : d + (n + 1) = d + 1 + n := by omega
    rw [List.replicate_succ, List.cons_append, runAll_cons_returned _ _ _ _ _ h1, List.map_cons,
      hd, ih (d + 1) _ hl.1, List.range_succ_eq_map, List.map_cons, List.map_map, h1, hl.1,
      List.cons_append]
    refine congrArg₂ _ (by simp) (congrArg₂ _ (List.map_congr_left fun j _ => ?_) rfl)
    simp only [Function.comp, Nat.succ_eq_add_one]
    congr 2
    omega

/-- The trajectory of `nested n` from an unlocked primitive, call by call. -/
theorem nested_trajectory (b : Backend) (e x : Bool → Mutex → Prog Word)
    (he : compiled_mutex_enter b = some e) (hx : compiled_mutex_exit b = some x) (t : Thread)
    (lg : Bool) (m : Mutex) (n : Nat) (w : World MutexState) (hw : w.host = .Unlocked) (i : Nat)
    (hi : i < 2 * n) :
    ∃ r, (runAll (refEnv t) (nested n (e lg m) (x lg m)) w)[i]? = some r ∧
      r.1 = .returned 0 ∧ r.2.host = lockedAt t (if i < n then i + 1 else 2 * n - 1 - i) := by
  have h := enters_exits_trajectory b e x he hx t lg m n 0 w (by simpa [lockedAt] using hw)
  have hg := congrArg (fun l => l[i]?) h
  simp only [List.getElem?_map, Nat.zero_add] at hg
  cases hr : (runAll (refEnv t) (nested n (e lg m) (x lg m)) w)[i]? with
  | none =>
    simp only [nested] at hr
    rw [hr] at hg
    by_cases hin : i < n
    · simp [List.getElem?_append_left, hin, List.getElem?_range] at hg
    · have h2 : i - n < n := by omega
      simp [List.getElem?_append_right, Nat.le_of_not_lt hin, List.getElem?_range, h2] at hg
  | some r =>
    simp only [nested] at hr
    rw [hr] at hg
    refine ⟨r, rfl, ?_⟩
    by_cases hin : i < n
    · simp [List.getElem?_append_left, hin, List.getElem?_range] at hg
      simp [hg.1, hg.2, hin]
    · have h2 : i - n < n := by omega
      simp [List.getElem?_append_right, Nat.le_of_not_lt hin, List.getElem?_range, h2] at hg
      simp only [hg.1, hg.2, hin, if_false, true_and]
      congr 1
      omega

theorem nested_length (b : Backend) (e x : Bool → Mutex → Prog Word)
    (he : compiled_mutex_enter b = some e) (hx : compiled_mutex_exit b = some x) (t : Thread)
    (lg : Bool) (m : Mutex) (n : Nat) (w : World MutexState) (hw : w.host = .Unlocked) :
    (runAll (refEnv t) (nested n (e lg m) (x lg m)) w).length = 2 * n := by
  have h := enters_exits_trajectory b e x he hx t lg m n 0 w (by simpa [lockedAt] using hw)
  have hl := congrArg List.length h
  simp only [List.length_map, List.length_append, List.length_range, Nat.zero_add] at hl
  simp only [nested]
  omega

/-! ## Nested acquisition by one thread -/

/-- C6: over the reference model of the native primitive, on every backend
that defines `mutex_enter`, `mutex_exit` and `mutex_dispose`, for every `n`
and every thread: after `mutex_initialize` of uninitialized storage, which
returns, the `2 * n` calls of `n` times `mutex_enter` and then `n` times
`mutex_exit` are all made and all return `0`; after each of the first
`2 * n - 1` calls the thread holds the mutex (depth at least `1`); after the
last one no thread holds it (depth `0`) and `mutex_dispose` returns, the
process is not aborted. -/
theorem enter_exit_nesting (K : Constants) (b : Backend) (e x : Bool → Mutex → Prog Word)
    (d : Bool → Mutex → Prog Unit) (he : compiled_mutex_enter b = some e)
    (hx : compiled_mutex_exit b = some x) (hd : compiled_mutex_dispose b = some d)
    (t : Thread) (lg : Bool) (m : Mutex) (n : Nat) (w : World MutexState)
    (hw : w.host = .Uninitialized) :
    (run (refEnv t) ( mutex_initialize K b lg m) w).1 = .returned () ∧
    (runAll (refEnv t) (nested n (e lg m) (x lg m))
      (run (refEnv t) ( mutex_initialize K b lg m) w).2).length = 2 * n ∧
    ∀ i, i < 2 * n →
      ∃ r, (runAll (refEnv t) (nested n (e lg m) (x lg m))
          (run (refEnv t) ( mutex_initialize K b lg m) w).2)[i]? = some r ∧
        r.1 = .returned 0 ∧
        (i + 1 < 2 * n → 1 ≤ depthOf t r.2.host) ∧
        (i + 1 = 2 * n →
          (∀ u, depthOf u r.2.host = 0) ∧ (run (refEnv t) (d lg m) r.2).1 = .returned ()) := by
  have hi := initialize_ref K b e he t lg m w hw
  refine ⟨hi.1, nested_length b e x he hx t lg m n _ hi.2, fun i hlt => ?_⟩
  obtain ⟨r, hr, h0, hh⟩ := nested_trajectory b e x he hx t lg m n _ hi.2 i hlt
  refine ⟨r, hr, h0, fun h1 => ?_, fun h2 => ?_⟩
  · rw [hh, depthOf_lockedAt]
    split <;> omega
  · have hlast : r.2.host = .Unlocked := by
      rw [hh]
      have : ¬ i < n := by omega
      simp only [this, if_false]
      have : 2 * n - 1 - i = 0 := by omega
      simp [this, lockedAt]
    exact ⟨fun u => by simp [hlast, depthOf], (dispose_ref b d hd t lg m r.2 hlast).1⟩

/-- C6, witness (`n = 1` on the POSIX backend): thread `1` calls
`mutex_initialize`, `mutex_enter`, `mutex_exit` and `mutex_dispose` on fresh
storage; the three calls made are made, `mutex_exit` returns `0`, and
`mutex_dispose` returns. -/
theorem enter_exit_nesting_witness :
    (run (refEnv 1) ( mutex_initialize hostHeaders .POSIX false 8) World.fresh).1
        = .returned () ∧
    (runAll (refEnv 1) (nested 1 (POSIX.mutex_enter false 8) (POSIX.mutex_exit false 8))
      (run (refEnv 1) ( mutex_initialize hostHeaders .POSIX false 8) World.fresh).2).length
        = 2 ∧
    ∃ r, (runAll (refEnv 1) (nested 1 (POSIX.mutex_enter false 8) (POSIX.mutex_exit false 8))
          (run (refEnv 1) ( mutex_initialize hostHeaders .POSIX false 8) World.fresh).2)[1]?
        = some r ∧
      r.1 = .returned 0 ∧ (run (refEnv 1) (POSIX.mutex_dispose false 8) r.2).1 = .returned () := by
  have h := enter_exit_nesting hostHeaders .POSIX POSIX.mutex_enter POSIX.mutex_exit
    POSIX.mutex_dispose rfl rfl rfl 1 false 8 1 World.fresh rfl
  obtain ⟨r, hr, h0, _, hlast⟩ := h.2.2 1 (by decide)
  exact ⟨h.1, h.2.1, r, hr, h0, (hlast rfl).2⟩

/-! ## The query of the hypervisor backend -/

theorem isHeld_ref (t : Thread) (lg : Bool) (m : Mutex) (v : World MutexState) :
    (run (refEnv t) (GUESTVMXEN.mutex_isHeld lg m) v).1
        = .returned (if 1 ≤ depthOf t v.host then 1 else 0) ∧
    (run (refEnv t) (GUESTVMXEN.mutex_isHeld lg m) v).2.host = v.host ∧
    (run (refEnv t) (GUESTVMXEN.mutex_isHeld lg m) v).2.mem = v.mem := by
  cases lg <;>
    simp [GUESTVMXEN.mutex_isHeld, call, load, thread_self, log_println, Prog.bind, run, refEnv,
      refNative, refHolds]

/-- C7: on the hypervisor backend `mutex_isHeld` makes the one native call
`guestvmXen_holds_monitor(*mutex)` and returns its result as it is, leaving the
handle alone.  Over the reference model that result is true (`1`) if and only
if the calling thread has recursion depth at least `1`, and the state of the
monitor is unchanged; it is false for a thread that has not entered a freshly
initialized mutex, true after each call of a nest of `n` enters and `n` exits
but the last, and false right after the last exit. -/
theorem mutex_isHeld_holds {σ : Type} (env : Env σ) (y : World σ) (r : Word) (s : σ)
    (K : Constants) (lg : Bool) (m : Mutex) (t u : Thread) (n : Nat) (v w : World MutexState)
    (hq : env.native (.guestvmXen_holds_monitor (y.mem m)) y.host = some (r, s))
    (hw : w.host = .Uninitialized) :
    ((run env (GUESTVMXEN.mutex_isHeld lg m) y).1 = .returned r ∧
      callsMade env (GUESTVMXEN.mutex_isHeld lg m) y
        = [.guestvmXen_holds_monitor (y.mem m)] ∧
      (run env (GUESTVMXEN.mutex_isHeld lg m) y).2.mem = y.mem ∧
      (run env (GUESTVMXEN.mutex_isHeld lg m) y).2.host = s) ∧
    ((run (refEnv t) (GUESTVMXEN.mutex_isHeld lg m) v).1
        = .returned (if 1 ≤ depthOf t v.host then 1 else 0) ∧
      (run (refEnv t) (GUESTVMXEN.mutex_isHeld lg m) v).2.host = v.host ∧
      (run (refEnv t) (GUESTVMXEN.mutex_isHeld lg m) v).2.mem = v.mem) ∧
    (run (refEnv t) (GUESTVMXEN.mutex_isHeld lg m)
      (run (refEnv u) ( mutex_initialize K .GUESTVMXEN lg m) w).2).1 = .returned 0 ∧
    ∀ i, i < 2 * n →
      ∃ q, (runAll (refEnv t)
          (nested n (GUESTVMXEN.mutex_enter lg m) (GUESTVMXEN.mutex_exit lg m))
          (run (refEnv u) ( mutex_initialize K .GUESTVMXEN lg m) w).2)[i]? = some q ∧
        (run (refEnv t) (GUESTVMXEN.mutex_isHeld lg m) q.2).1
          = .returned (if i + 1 < 2 * n then 1 else 0) := by
  have hi := initialize_ref K .GUESTVMXEN GUESTVMXEN.mutex_enter rfl u lg m w hw
  refine ⟨?_, isHeld_ref t lg m v, ?_, fun i hlt => ?_⟩
  · cases lg <;>
      simp [callsMade, GUESTVMXEN.mutex_isHeld, call, load, thread_self, log_println, Prog.bind,
        run, hq]
  · rw [(isHeld_ref t lg m _).1, hi.2]
    simp [depthOf]
  · obtain ⟨q, hq1, _, hh⟩ := nested_trajectory .GUESTVMXEN GUESTVMXEN.mutex_enter
      GUESTVMXEN.mutex_exit rfl rfl t lg m n _ hi.2 i hlt
    refine ⟨q, hq1, ?_⟩
    rw [(isHeld_ref t lg m q.2).1, hh, depthOf_lockedAt]
    by_cases h1 : i + 1 < 2 * n
    · have : 1 ≤ (if i < n then i + 1 else 2 * n - 1 - i) := by split <;> omega
      simp [h1, this]
    · have : ¬ 1 ≤ (if i < n then i + 1 else 2 * n - 1 - i) := by split <;> omega
      simp [h1, this]

/-- C7, witness: on the reference host thread `2` has initialized the monitor
behind the handle at `8`; `mutex_isHeld` of thread `1` is false before it
enters, true after its `mutex_enter` and false after its `mutex_exit`. -/
theorem mutex_isHeld_holds_witness :
    (run (refEnv 1) (GUESTVMXEN.mutex_isHeld false 8)
      (run (refEnv 2) ( mutex_initialize hostHeaders .GUESTVMXEN false 8) World.fresh).2).1
        = .returned 0 ∧
    (∃ q, (runAll (refEnv 1)
          (nested 1 (GUESTVMXEN.mutex_enter false 8) (GUESTVMXEN.mutex_exit false 8))
          (run (refEnv 2) ( mutex_initialize hostHeaders .GUESTVMXEN false 8)
            World.fresh).2)[0]? = some q ∧
        (run (refEnv 1) (GUESTVMXEN.mutex_isHeld false 8) q.2).1 = .returned 1) ∧
    (∃ q, (runAll (refEnv 1)
          (nested 1 (GUESTVMXEN.mutex_enter false 8) (GUESTVMXEN.mutex_exit false 8))
          (run (refEnv 2) ( mutex_initialize hostHeaders .GUESTVMXEN false 8)
            World.fresh).2)[1]? = some q ∧
        (run (refEnv 1) (GUESTVMXEN.mutex_isHeld false 8) q.2).1 = .returned 0) := by
  have h := mutex_isHeld_holds (refEnv 1) World.fresh 0 .Uninitialized hostHeaders false 8 1 2 1
    World.fresh World.fresh rfl rfl
  exact ⟨h.2.2.1, h.2.2.2 0 (by decide), h.2.2.2 1 (by decide)⟩

/-! ## Mutual exclusion -/

/-- Over the reference host, what `mutex_enter` comes to when the native lock
call returns the status `r`. -/
theorem enter_outcome (b : Backend) (e : Bool → Mutex → Prog Word)
    (he : compiled_mutex_enter b = some e) (t : Thread) (lg : Bool) (m : Mutex)
    (w : World MutexState) (r : Word) (s : MutexState) (hl : refLock t w.host = some (r, s)) :
    (run (refEnv t) (e lg m) w).1
      = if b = .GUESTVMXEN then (if r = 0 then .returned 0 else .aborted .ASSERT)
        else .returned r := by
  cases b <;> simp [compiled_mutex_enter] at he <;> subst he <;> cases lg <;>
    by_cases hr : r = 0 <;>
    simp [SOLARIS.mutex_enter, POSIX.mutex_enter, GUESTVMXEN.mutex_enter, call, load, c_ASSERT,
      thread_self, log_println, Prog.bind, run, refEnv, refNative, hl, hr]

/-- Over the reference host, what `mutex_exit` comes to when the native unlock
call returns the status `r`. -/
theorem exit_outcome (b : Backend) (e : Bool → Mutex → Prog Word)
    (he : compiled_mutex_exit b = some e) (t : Thread) (lg : Bool) (m : Mutex)
    (w : World MutexState) (r : Word) (s : MutexState) (hl : refUnlock t w.host = some (r, s)) :
    (run (refEnv t) (e lg m) w).1
      = if b = .GUESTVMXEN then (if r = 0 then .returned 0 else .aborted .ASSERT)
        else .returned r := by
  cases b <;> simp [compiled_mutex_exit] at he <;> subst he <;> cases lg <;>
    by_cases hr : r = 0 <;>
    simp [SOLARIS.mutex_exit, POSIX.mutex_exit, GUESTVMXEN.mutex_exit, call, load, c_ASSERT,
      thread_self, log_println, Prog.bind, run, refEnv, refNative, hl, hr]

/-- The status that a wrapper hands to its caller is `0` exactly when the
native call returned `0`. -/
theorem reports (b : Backend) (r r1 : Word)
    (ho : (if b = .GUESTVMXEN then (if r = 0 then Outcome.returned (0 : Word)
        else .aborted .ASSERT) else .returned r) = .returned r1) : r1 = 0 ↔ r = 0 := by
  by_cases hb : b = .GUESTVMXEN <;> by_cases hr : r = 0 <;> simp [hb, hr] at ho <;>
    simp [← ho, hr]

/-- A native lock call that returns, on a primitive that is unlocked or locked
at a depth of at least `1`, returns `0` and adds `1` to the depth of the caller
and nothing to the depth of any other thread. -/
theorem lock_step (t : Thread) (r : Word) (s st : MutexState)
    (hinv : st = .Unlocked ∨ ∃ o d, st = .Locked o (d + 1))
    (hl : refLock t st = some (r, s)) :
    r = 0 ∧ (s = .Unlocked ∨ ∃ o d, s = .Locked o (d + 1)) ∧
      ∀ u, depthOf u s = if t = u then depthOf u st + 1 else depthOf u st := by
  rcases hinv with h | ⟨o, d, h⟩
  · subst h
    simp only [refLock, Option.some.injEq, Prod.mk.injEq] at hl
    obtain ⟨h1, h2⟩ := hl
    subst h1 h2
    exact ⟨rfl, Or.inr ⟨t, 0, rfl⟩, fun u => by simp [depthOf]⟩
  · subst h
    simp only [refLock] at hl
    split at hl
    · rename_i hot
      simp only [Option.some.injEq, Prod.mk.injEq] at hl
      obtain ⟨h1, h2⟩ := hl
      subst h1 h2 hot
      refine ⟨rfl, Or.inr ⟨o, d + 1, rfl⟩, fun u => ?_⟩
      by_cases hu : o = u <;> simp [depthOf, hu]
    · cases hl

/-- A native unlock call, on a primitive that is unlocked or locked at a depth
of at least `1`, takes `1` off the depth of the caller when it returns `0`, and
leaves every depth as it is otherwise. -/
theorem unlock_step (t : Thread) (r : Word) (s st : MutexState)
    (hinv : st = .Unlocked ∨ ∃ o d, st = .Locked o (d + 1))
    (hl : refUnlock t st = some (r, s)) :
    (s = .Unlocked ∨ ∃ o d, s = .Locked o (d + 1)) ∧
      ∀ u, depthOf u s = if t = u ∧ r = 0 then depthOf u st - 1 else depthOf u st := by
  rcases hinv with h | ⟨o, d, h⟩
  · subst h
    simp only [refUnlock, Option.some.injEq, Prod.mk.injEq] at hl
    obtain ⟨h1, h2⟩ := hl
    subst h1 h2
    exact ⟨Or.inl rfl, fun u => by simp [depthOf]⟩
  · subst h
    simp only [refUnlock] at hl
    split at hl
    · rename_i hot
      simp only [Option.some.injEq, Prod.mk.injEq] at hl
      obtain ⟨h1, h2⟩ := hl
      subst h1 h2 hot
      cases d with
      | zero =>
        refine ⟨Or.inl (by simp), fun u => ?_⟩
        by_cases hu : o = u <;> simp [depthOf, hu]
      | succ d =>
        refine ⟨Or.inr ⟨o, d, by simp⟩, fun u => ?_⟩
        by_cases hu : o = u <;> simp [depthOf, hu]
    · rename_i hot
      simp only [Option.some.injEq, Prod.mk.injEq] at hl
      obtain ⟨h1, h2⟩ := hl
      subst h1 h2
      exact ⟨Or.inr ⟨o, d, rfl⟩, fun u => by simp [EPERM]⟩

/-- In every world reached by an interleaving, the primitive is unlocked or
locked at a depth of at least `1`, and the depth that the callers count for a
thread from the statuses handed to them is the depth the primitive keeps. -/
theorem interleaving_invariant (K : Constants) (b : Backend) (lg : Bool) (m : Mutex)
    (w : World MutexState) (h : List Event) (hw : Interleaving K b lg m w h) :
    (w.host = .Unlocked ∨ ∃ o d, w.host = .Locked o (d + 1)) ∧
      ∀ u, recursionDepth u h = depthOf u w.host := by
  induction hw with
  | initialized t w hu hr =>
    have hi : (run (refEnv t) ( mutex_initialize K b lg m) w).2.host = .Unlocked := by
      cases b with
      | NONE =>
        cases lg <;>
          simp [call, mutex_initialize, c_UNIMPLEMENTED, thread_self, log_println, Prog.bind,
            run] at hr
      | SOLARIS => exact (initialize_ref K .SOLARIS SOLARIS.mutex_enter rfl t lg m w hu).2
      | POSIX => exact (initialize_ref K .POSIX POSIX.mutex_enter rfl t lg m w hu).2
      | GUESTVMXEN =>
        exact (initialize_ref K .GUESTVMXEN GUESTVMXEN.mutex_enter rfl t lg m w hu).2
    exact ⟨Or.inl hi, fun u => by simp [hi, recursionDepth, depthOf]⟩
  | enter t e r w h _ he hr ih =>
    have href := enter_ref b e he t lg m w
    cases hl : refLock t w.host with
    | none => rw [(href.1 hl).1] at hr; cases hr
    | some p =>
      obtain ⟨r0, s⟩ := p
      obtain ⟨h0, hs, hd⟩ := lock_step t r0 s w.host ih.1 hl
      have hrep : r = 0 := (reports b r0 r (by rw [← enter_outcome b e he t lg m w r0 s hl]; exact hr)).2 h0
      rw [(href.2 r0 s hl).1]
      refine ⟨hs, fun u => ?_⟩
      rw [hd u, ← ih.2 u]
      simp [recursionDepth, hrep]
  | exit t e r w h _ he hr ih =>
    obtain ⟨p, hl⟩ : ∃ p, refUnlock t w.host = some p := by
      cases hst : w.host <;> simp only [refUnlock] <;> first | exact ⟨_, rfl⟩ | (split <;> exact ⟨_, rfl⟩)
    obtain ⟨r0, s⟩ := p
    obtain ⟨hs, hd⟩ := unlock_step t r0 s w.host ih.1 hl
    have hrep : r = 0 ↔ r0 = 0 :=
      reports b r0 r (by rw [← exit_outcome b e he t lg m w r0 s hl]; exact hr)
    rw [(exit_ref b e he t lg m w r0 s hl).1]
    refine ⟨hs, fun u => ?_⟩
    rw [hd u, ← ih.2 u]
    simp [recursionDepth, hrep]

/-- C8: over the reference model of the native primitive, in every world
reached from an initialized mutex by any interleaving of returning
`mutex_enter` and `mutex_exit` calls of any threads, at most one thread has
recursion depth at least `1`, the recursion depth of a thread being counted
from the statuses that its calls returned; that count is the depth the
primitive keeps for the thread; while a thread `t1` has depth at least `1`, a
`mutex_enter` of another thread `t2` does not return, it stays blocked and
leaves the primitive as it is; and once every thread has depth `0`, a
`mutex_enter` of any thread returns `0` and makes it the holder at depth `1`. -/
theorem mutual_exclusion (K : Constants) (b : Backend) (lg : Bool) (m : Mutex)
    (w : World MutexState) (h : List Event) (hw : Interleaving K b lg m w h) :
    (∀ t1 t2, 1 ≤ recursionDepth t1 h → 1 ≤ recursionDepth t2 h → t1 = t2) ∧
    (∀ u, recursionDepth u h = depthOf u w.host) ∧
    (∀ t1 t2 e, compiled_mutex_enter b = some e → 1 ≤ recursionDepth t1 h → t2 ≠ t1 →
      (run (refEnv t2) (e lg m) w).1 = .blocked ∧
      (run (refEnv t2) (e lg m) w).2.host = w.host) ∧
    (∀ t2 e, compiled_mutex_enter b = some e → (∀ t, recursionDepth t h = 0) →
      (run (refEnv t2) (e lg m) w).1 = .returned 0 ∧
      depthOf t2 (run (refEnv t2) (e lg m) w).2.host = 1) := by
  obtain ⟨hinv, hdep⟩ := interleaving_invariant K b lg m w h hw
  have howner : ∀ t, 1 ≤ recursionDepth t h → ∃ d, w.host = .Locked t (d + 1) := by
    intro t ht
    rw [hdep t] at ht
    rcases hinv with h0 | ⟨o, d, h0⟩
    · simp [h0, depthOf] at ht
    · rw [h0] at ht
      simp only [depthOf] at ht
      split at ht
      · rename_i hot
        subst hot
        exact ⟨d, h0⟩
      · omega
  refine ⟨fun t1 t2 h1 h2 => ?_, hdep, fun t1 t2 e he h1 hne => ?_, fun t2 e he hfree => ?_⟩
  · obtain ⟨d1, e1⟩ := howner t1 h1
    obtain ⟨d2, e2⟩ := howner t2 h2
    rw [e1] at e2
    injection e2
  · obtain ⟨d1, e1⟩ := howner t1 h1
    have hl : refLock t2 w.host = none := by
      rw [e1]
      have : ¬ t1 = t2 := fun h2 => hne h2.symm
      simp [refLock, this]
    exact (enter_ref b e he t2 lg m w).1 hl
  · rcases hinv with h0 | ⟨o, d, h0⟩
    · have hl : refLock t2 w.host = some (0, .Locked t2 1) := by rw [h0]; rfl
      have href := (enter_ref b e he t2 lg m w).2 0 _ hl
      exact ⟨href.2.2.2 rfl, by rw [href.1]; simp [depthOf]⟩
    · have := hfree o
      rw [hdep o] at this
      simp [h0, depthOf] at this

theorem heldOnce_interleaving :
    Interleaving hostHeaders .POSIX false 8 heldOnce heldOnceHistory :=
  Interleaving.exit 1 POSIX.mutex_exit 0 _ _
    (Interleaving.enter 1 POSIX.mutex_enter 0 _ _
      (Interleaving.enter 1 POSIX.mutex_enter 0 _ _
        (Interleaving.initialized 1 World.fresh rfl rfl) rfl rfl) rfl rfl) rfl rfl

/-- C8, witness (the scenario of section 8): thread `1` has entered twice and
exited once, so it has depth `1`; the `mutex_enter` of thread `2` stays
blocked, and after the second `mutex_exit` of thread `1` it returns `0` and
thread `2` is the holder. -/
theorem mutual_exclusion_witness :
    recursionDepth 1 heldOnceHistory = 1 ∧
    (run (refEnv 2) (POSIX.mutex_enter false 8) heldOnce).1 = .blocked ∧
    (run (refEnv 2) (POSIX.mutex_enter false 8)
      (run (refEnv 1) (POSIX.mutex_exit false 8) heldOnce).2).1 = .returned 0 ∧
    depthOf 2 (run (refEnv 2) (POSIX.mutex_enter false 8)
      (run (refEnv 1) (POSIX.mutex_exit false 8) heldOnce).2).2.host = 1 :=
  have h := mutual_exclusion hostHeaders .POSIX false 8 heldOnce heldOnceHistory
    heldOnce_interleaving
  have h2 := mutual_exclusion hostHeaders .POSIX false 8 _ (⟨1, false, 0⟩ :: heldOnceHistory)
    (Interleaving.exit 1 POSIX.mutex_exit 0 _ _ heldOnce_interleaving rfl rfl)
  ⟨by decide, (h.2.2.1 1 2 POSIX.mutex_enter rfl (by decide) (by decide)).1,
    h2.2.2.2 2 POSIX.mutex_enter rfl (fun t => by
      by_cases ht : (1 : Thread) = t <;> simp [recursionDepth, heldOnceHistory, ht])⟩

/-! ## The configuration handed to the native primitive -/

theorem recursive_iff (sem : Semantics) : Recursive sem ↔ sem.recursive = true := by
  constructor
  · intro h
    have h0 := h 0 0
    cases hr : sem.recursive with
    | true => rfl
    | false =>
      cases he : sem.errorcheck <;> simp [cfgLock, hr, he, EDEADLK] at h0
  · intro h t d
    simp [cfgLock, h]

theorem errorChecking_iff (sem : Semantics) : ErrorChecking sem ↔ sem.errorcheck = true := by
  constructor
  · intro h
    obtain ⟨r, hr, h0⟩ := h.2 0
    cases he : sem.errorcheck with
    | true => rfl
    | false =>
      simp only [cfgUnlock, he, Bool.false_eq_true, if_false, Option.some.injEq,
        Prod.mk.injEq] at h0
      exact absurd h0.1.symm hr
  · intro h
    refine ⟨fun t o d hne => ⟨EPERM, by decide, ?_⟩, fun t => ⟨EPERM, by decide, ?_⟩⟩
    · simp [cfgUnlock, h, hne]
    · simp [cfgUnlock, h]

/-- A primitive that is recursive and error-checking is the primitive of the
reference model. -/
theorem cfg_reference (t : Thread) (st : MutexState) :
    cfgLock ⟨true, true⟩ t st = refLock t st ∧ cfgUnlock ⟨true, true⟩ t st = refUnlock t st := by
  cases st <;> simp [cfgLock, cfgUnlock, refLock, refUnlock]

/-- Over the host that keeps the configuration, `mutex_initialize` of each of
the three backends returns and leaves an unlocked primitive that was created
recursive and error-checking. -/
theorem cfg_initialize (K : Constants) (b : Backend) (hb : b ≠ .NONE) (t : Thread) (lg : Bool)
    (m : Mutex) (w : World CfgState) (hw : w.host = CfgState.fresh) :
    (run (cfgEnv K t) ( mutex_initialize K b lg m) w).1 = .returned () ∧
    (run (cfgEnv K t) ( mutex_initialize K b lg m) w).2.host.st = .Unlocked ∧
    (run (cfgEnv K t) ( mutex_initialize K b lg m) w).2.host.sem = ⟨true, true⟩ := by
  cases b <;> first | exact absurd rfl hb | skip
  all_goals
    cases lg <;>
      simp [call, mutex_initialize, store, c_ASSERT, thread_self, log_println, Prog.bind, run,
        cfgEnv, cfgNative, cfgCreate, posixSemantics, solarisSemantics, monitorSemantics, hw,
        CfgState.fresh, or_and_left_flag, or_and_right_flag]

theorem cfg_posix_calls (K : Constants) (t : Thread) (lg : Bool) (m : Mutex)
    (w : World CfgState) (hw : w.host = CfgState.fresh) :
    callsMade (cfgEnv K t) ( mutex_initialize K .POSIX lg m) w
      = [.pthread_mutexattr_init, .pthread_mutexattr_settype K.PTHREAD_MUTEX_RECURSIVE,
          .pthread_mutex_init m, .pthread_mutexattr_destroy] := by
  cases lg <;>
    simp [callsMade, call, mutex_initialize, c_ASSERT, thread_self, log_println, Prog.bind, run,
      cfgEnv, cfgNative, cfgCreate, posixSemantics, hw, CfgState.fresh]

/-- C5: on Solaris the one native call of `mutex_initialize` is `mutex_init`
with the flags `LOCK_RECURSIVE | LOCK_ERRORCHECK`, which include both
`LOCK_RECURSIVE` and `LOCK_ERRORCHECK`; on POSIX the only type ever handed to
`pthread_mutexattr_settype` is `PTHREAD_MUTEX_RECURSIVE`, it is set on the
attribute before `pthread_mutex_init` uses it, and a mutex of that type is
both recursive and error-checking; on the hypervisor backend the one native
call is `guestvmXen_monitor_create`.  On each of the three backends
`mutex_initialize` returns and leaves an unlocked primitive that is recursive
(its owner re-acquires it without blocking, one level deeper) and
error-checking (an unlock by a thread that does not hold it returns a non-zero
code and changes nothing). -/
theorem mutex_initialize_configuration (K : Constants) (lg : Bool) (m : Mutex) (self : Thread)
    (ans : NativeCall → Word) (wa : World Unit) (t : Thread) (w : World CfgState)
    (hw : w.host = CfgState.fresh) :
    callsMade (answers self ans) ( mutex_initialize K .SOLARIS lg m) wa
        = [.mutex_init m (K.LOCK_RECURSIVE ||| K.LOCK_ERRORCHECK)] ∧
    (K.LOCK_RECURSIVE ||| K.LOCK_ERRORCHECK) &&& K.LOCK_RECURSIVE = K.LOCK_RECURSIVE ∧
    (K.LOCK_RECURSIVE ||| K.LOCK_ERRORCHECK) &&& K.LOCK_ERRORCHECK = K.LOCK_ERRORCHECK ∧
    (∀ ty ∈ requestedTypes (callsMade (answers self ans) ( mutex_initialize K .POSIX lg m) wa),
        ty = K.PTHREAD_MUTEX_RECURSIVE) ∧
    callsMade (cfgEnv K t) ( mutex_initialize K .POSIX lg m) w
        = [.pthread_mutexattr_init, .pthread_mutexattr_settype K.PTHREAD_MUTEX_RECURSIVE,
            .pthread_mutex_init m, .pthread_mutexattr_destroy] ∧
    (∃ sem, posixSemantics K (.typed K.PTHREAD_MUTEX_RECURSIVE) = some sem ∧
        Recursive sem ∧ ErrorChecking sem) ∧
    callsMade (answers self ans) ( mutex_initialize K .GUESTVMXEN lg m) wa
        = [.guestvmXen_monitor_create] ∧
    ∀ b ∈ [Backend.SOLARIS, Backend.POSIX, Backend.GUESTVMXEN],
      (run (cfgEnv K t) ( mutex_initialize K b lg m) w).1 = .returned () ∧
      (run (cfgEnv K t) ( mutex_initialize K b lg m) w).2.host.st = .Unlocked ∧
      Recursive (run (cfgEnv K t) ( mutex_initialize K b lg m) w).2.host.sem ∧
      ErrorChecking (run (cfgEnv K t) ( mutex_initialize K b lg m) w).2.host.sem := by
  refine ⟨?_, or_and_left_flag _ _, or_and_right_flag _ _, ?_, cfg_posix_calls K t lg m w hw,
    ⟨⟨true, true⟩, by simp [posixSemantics], (recursive_iff _).2 rfl,
      (errorChecking_iff _).2 rfl⟩, ?_, ?_⟩
  · cases lg <;>
      by_cases h1 : ans (.mutex_init m (K.LOCK_RECURSIVE ||| K.LOCK_ERRORCHECK)) = 0 <;>
      simp [callsMade, call, mutex_initialize, c_ASSERT, thread_self, log_println, Prog.bind,
        run, answers, h1]
  · rw [posix_calls K lg m self ans wa]
    by_cases h1 : ans .pthread_mutexattr_init = 0 <;>
      by_cases h2 : ans (.pthread_mutexattr_settype K.PTHREAD_MUTEX_RECURSIVE) = 0 <;>
      by_cases h3 : ans (.pthread_mutex_init m) = 0 <;>
      by_cases h4 : ans .pthread_mutexattr_destroy = 0 <;>
      simp [posixSteps, untilFailure, requestedTypes, h1, h2, h3, h4]
  · cases lg <;>
      simp [callsMade, call, mutex_initialize, store, thread_self, log_println, Prog.bind, run,
        answers]
  · intro b hb
    have hne : b ≠ .NONE := by
      intro h
      subst h
      simp at hb
    obtain ⟨h1, h2, h3⟩ := cfg_initialize K b hne t lg m w hw
    exact ⟨h1, h2, by rw [h3]; exact (recursive_iff _).2 rfl,
      by rw [h3]; exact (errorChecking_iff _).2 rfl⟩

/-- C5, witness: with the constants of the host headers, thread `1`
initializes the mutex at `8` on the POSIX backend; the primitive it leaves is
recursive and error-checking. -/
theorem mutex_initialize_configuration_witness :
    (run (cfgEnv hostHeaders 1) ( mutex_initialize hostHeaders .POSIX false 8)
      World.unconfigured).1 = .returned () ∧
    Recursive (run (cfgEnv hostHeaders 1) ( mutex_initialize hostHeaders .POSIX false 8)
      World.unconfigured).2.host.sem ∧
    ErrorChecking (run (cfgEnv hostHeaders 1) ( mutex_initialize hostHeaders .POSIX false 8)
      World.unconfigured).2.host.sem :=
  have h := (mutex_initialize_configuration hostHeaders false 8 0 (fun _ => 0) World.blank 1
    World.unconfigured rfl).2.2.2.2.2.2.2 .POSIX (by simp)
  ⟨h.1, h.2.2.1, h.2.2.2⟩

end MaxineMutex
